import Mathlib

/-!
Shallow embedding of the core of the bili-cloud-bot repository
(src/database.ts and src/main.ts): the event-deduplication ledger, the
per-entity daily rate limiter, the append/rollback statistics store and
the workflow that ties them together.

The durable key-value store (the `level` package) maps string keys to
JSON values.  The four key namespaces used by the code —
`processed_at:<id>`, `daily_comment:<uid>:<date>`, `user:<uid>` and
`record:<uid>:<ts>` — are disjoint (distinct prefixes) and within each
namespace the key string determines the typed key (the decimal rendering
of an id is injective, and the date part of a daily key contains no
colon, so `<uid>:<date>` splits unambiguously at the last colon).  We
therefore model the store as four typed association lists.  `db.put`
overwrites in place or inserts, `db.get` returns the value or is treated
as absent (the code catches the not-found error), and `db.del` is a
no-op on a missing key and does not throw (LevelDB delete semantics).
-/

/-- JS-object / Level-store lookup on an association list. -/
def alGet {κ α : Type} [DecidableEq κ] (m : List (κ × α)) (k : κ) : Option α :=
  match m with
  | [] => none
  | (k', v) :: rest => if k' = k then some v else alGet rest k

/-- JS-object / Level-store upsert: update the entry in place if the key
is present, otherwise append it at the end (JS object insertion order). -/
def alPut {κ α : Type} [DecidableEq κ] (m : List (κ × α)) (k : κ) (v : α) :
    List (κ × α) :=
  match m with
  | [] => [(k, v)]
  | (k', v') :: rest =>
      if k' = k then (k, v) :: rest else (k', v') :: alPut rest k v

/-- JS `delete obj[k]` / Level `del`: remove the entry for the key. -/
def alDel {κ α : Type} [DecidableEq κ] (m : List (κ × α)) (k : κ) :
    List (κ × α) :=
  match m with
  | [] => []
  | (k', v') :: rest => if k' = k then alDel rest k else (k', v') :: alDel rest k

/-- JS truthiness of an optional number: `undefined`, `null` and `0` are
falsy, every other number is truthy. -/
def jsTruthyNum (o : Option Int) : Bool :=
  match o with
  | some v => v ≠ 0
  | none => false

/-- JS truthiness of an optional string: `undefined`, `null` and the
empty string are falsy. -/
def jsTruthyStr (o : Option String) : Bool :=
  match o with
  | some s => s ≠ ""
  | none => false

/-- JS `a || b` on an optional string (falsy means absent or empty). -/
def jsOrStr (o : Option String) (dflt : String) : String :=
  match o with
  | some s => if s = "" then dflt else s
  | none => dflt

/-- JS `a || b` on an optional number (falsy means absent or zero). -/
def jsOrNum (o : Option Int) (dflt : Int) : Int :=
  match o with
  | some v => if v = 0 then dflt else v
  | none => dflt

/-- JS `arr.slice(-n)` for a non-negative `n`: the suffix of the last `n`
elements, except that `slice(-0)` is `slice(0)`, the whole array. -/
def jsSliceNeg {α : Type} (l : List α) (n : Nat) : List α :=
  if n = 0 then l else l.drop (l.length - n)

-- ---------------------------------------------------------------------
-- Data model (src/database.ts).  Numbers in the source are JS numbers;
-- the integral quantities (counts, timestamps, ids) are modelled as Int
-- or Nat, and the confidence in [0,1] as a rational.
-- ---------------------------------------------------------------------

/-- CloudType (云彩类型): one detected cloud category entry. -/
structure CloudType where
  type : String
  confidence : ℚ
  description : Option String := none
  deriving DecidableEq, Repr

/-- CheckInRecord (单次打卡记录): one accepted check-in. -/
structure CheckInRecord where
  dynamicId : String
  timestamp : Int
  cloudTypes : List CloudType
  imageCount : Int
  analysis : String
  deriving DecidableEq, Repr

/-- ProcessedAtMessage (已处理的@消息记录): a ledger entry. -/
structure ProcessedAtMessage where
  atMessageId : Nat
  dynamicId : String
  processedAt : Int
  fromUser : String
  uri : String
  deriving DecidableEq, Repr

/-- UserStats (用户打卡统计): the per-entity aggregate. -/
structure UserStats where
  userName : String
  totalCheckIns : Int
  totalImages : Int
  cloudTypeStats : List (String × Int)
  firstCheckIn : Int
  lastCheckIn : Int
  checkInRecords : List CheckInRecord
  deriving DecidableEq, Repr

/-- Value stored under a `daily_comment:<uid>:<date>` key. -/
structure DailyCommentRecord where
  authorId : String
  date : String
  timestamp : Int
  deriving DecidableEq, Repr

/-- The Level store state, split by the four disjoint key namespaces
(see the header comment for why this split is faithful). -/
structure DB where
  processed : List (Nat × ProcessedAtMessage)
  daily : List ((String × String) × DailyCommentRecord)
  users : List (String × UserStats)
  records : List ((String × Int) × CheckInRecord)
  deriving DecidableEq, Repr

def emptyDB : DB := ⟨[], [], [], []⟩

-- ---------------------------------------------------------------------
-- Daily rate limiter (src/database.ts, hasUserCommentedToday /
-- recordDailyComment).  The ambient `new Date()` is passed explicitly.
-- ---------------------------------------------------------------------

/-- A JS `Date`, restricted to the fields the code reads: `getFullYear`,
`getMonth` (0-based) and `getDate` (day of month, 1-based). -/
structure JsDate where
  year : Nat
  month : Nat
  day : Nat
  deriving DecidableEq, Repr

/-- `n.toString().padStart(2, "0")`: for `n < 10` a `"0"` is prepended,
otherwise the decimal rendering is at least two characters and is kept. -/
def pad2 (n : Nat) : String :=
  if n < 10 then "0" ++ toString n else toString n

/-- The daily key date part computed by the source:
`year-MM-DD` with the month and day zero-padded to two digits. -/
def dateKey (d : JsDate) : String :=
  toString d.year ++ "-" ++ pad2 (d.month + 1) ++ "-" ++ pad2 d.day

/-- hasUserCommentedToday: look up `daily_comment:<authorId>:<dateKey>`;
a missing key throws inside the `try` and yields `false`. -/
def hasUserCommentedToday (db : DB) (authorId : String) (today : JsDate) : Bool :=
  (alGet db.daily (authorId, dateKey today)).isSome

/-- recordDailyComment: store a record under
`daily_comment:<authorId>:<dateKey>` with the current timestamp. -/
def recordDailyComment (db : DB) (authorId : String) (today : JsDate)
    (nowTs : Int) : DB :=
  let rec0 : DailyCommentRecord := DailyCommentRecord.mk authorId (dateKey today) nowTs
  { db with daily := alPut db.daily (authorId, dateKey today) rec0 }

-- ---------------------------------------------------------------------
-- Event ledger (src/database.ts).
-- ---------------------------------------------------------------------

/-- recordProcessedAtMessage: put under `processed_at:<id>`. -/
def recordProcessedAtMessage (db : DB) (m : ProcessedAtMessage) : DB :=
  { db with processed := alPut db.processed m.atMessageId m }

/-- isAtMessageProcessed: a missing key yields `false`. -/
def isAtMessageProcessed (db : DB) (atMessageId : Nat) : Bool :=
  (alGet db.processed atMessageId).isSome

/-- getProcessedAtMessage: the record, or `null` when absent. -/
def getProcessedAtMessage (db : DB) (atMessageId : Nat) :
    Option ProcessedAtMessage :=
  alGet db.processed atMessageId

/-- deleteProcessedAtMessage: `db.del` then `return true`.  Level `del`
is a no-op on a missing key and does not throw, so without a storage
fault the function always returns `true`. -/
def deleteProcessedAtMessage (db : DB) (atMessageId : Nat) : Bool × DB :=
  (true, { db with processed := alDel db.processed atMessageId })

/-- listProcessedAtMessages: all ledger ids, descending. -/
def listProcessedAtMessages (db : DB) : List Nat :=
  ((db.processed.map Prod.fst).mergeSort (fun a b => b ≤ a))

-- ---------------------------------------------------------------------
-- Statistics aggregator (src/database.ts, recordCheckIn /
-- rollbackLastCheckIn / getUserStats / getRecentCheckIns).
-- ---------------------------------------------------------------------

/-- getUserStats: value under `user:<userId>`, or `null`. -/
def getUserStats (db : DB) (userId : String) : Option UserStats :=
  alGet db.users userId

/-- One step of the `forEach` in recordCheckIn updating the cloud-type
histogram: `stats[t] = (stats[t] || 0) + 1`.  (For numbers `x || 0`
equals `x` when present and non-zero and `0` otherwise, which is exactly
`getD 0`.) -/
def histAddStep (h : List (String × Int)) (c : CloudType) : List (String × Int) :=
  alPut h c.type ((alGet h c.type).getD 0 + 1)

def histAdd (h : List (String × Int)) (cts : List CloudType) :
    List (String × Int) :=
  cts.foldl histAddStep h

/-- One step of the `forEach` in rollbackLastCheckIn: if the current
count is truthy (present and non-zero) decrement it, deleting the key
when the result is `≤ 0`. -/
def histSubStep (h : List (String × Int)) (c : CloudType) : List (String × Int) :=
  match alGet h c.type with
  | some v =>
      if v ≠ 0 then
        if v - 1 ≤ 0 then alDel h c.type else alPut h c.type (v - 1)
      else h
  | none => h

def histSub (h : List (String × Int)) (cts : List CloudType) :
    List (String × Int) :=
  cts.foldl histSubStep h

/-- recordCheckIn: initialize stats on first check-in, update the
aggregate fields, append the record keeping the most recent 100, and
mirror the record under `record:<uid>:<ts>`. -/
def recordCheckIn (db : DB) (userId userName : String) (record : CheckInRecord) :
    DB :=
  let userStats : UserStats :=
    match alGet db.users userId with
    | some s => s
    | none =>
        { userName := userName, totalCheckIns := 0, totalImages := 0,
          cloudTypeStats := [], firstCheckIn := record.timestamp,
          lastCheckIn := record.timestamp, checkInRecords := [] }
  let pushed := userStats.checkInRecords ++ [record]
  let newStats : UserStats :=
    { userName := userName,
      totalCheckIns := userStats.totalCheckIns + 1,
      totalImages := userStats.totalImages + record.imageCount,
      cloudTypeStats := histAdd userStats.cloudTypeStats record.cloudTypes,
      firstCheckIn := userStats.firstCheckIn,
      lastCheckIn := record.timestamp,
      checkInRecords := if pushed.length > 100 then jsSliceNeg pushed 100 else pushed }
  { db with users := alPut db.users userId newStats,
            records := alPut db.records (userId, record.timestamp) record }

/-- rollbackLastCheckIn: pop the last record and reverse its effect on
the aggregate; `false` when the user is absent or has no records. -/
def rollbackLastCheckIn (db : DB) (userId : String) : Bool × DB :=
  match alGet db.users userId with
  | none => (false, db)
  | some userStats =>
      match userStats.checkInRecords.getLast? with
      | none => (false, db)
      | some lastRecord =>
          let newStats : UserStats :=
            { userName := userStats.userName,
              totalCheckIns := userStats.totalCheckIns - 1,
              totalImages := userStats.totalImages - lastRecord.imageCount,
              cloudTypeStats := histSub userStats.cloudTypeStats lastRecord.cloudTypes,
              firstCheckIn := userStats.firstCheckIn,
              lastCheckIn :=
                match userStats.checkInRecords.dropLast.getLast? with
                | some r => r.timestamp
                | none => userStats.firstCheckIn,
              checkInRecords := userStats.checkInRecords.dropLast }
          (true,
            { db with
              users := alPut db.users userId newStats,
              records := alDel db.records (userId, lastRecord.timestamp) })

/-- getRecentCheckIns: `checkInRecords.slice(-limit).reverse()`, empty
when the user has no stats. -/
def getRecentCheckIns (db : DB) (userId : String) (limit : Nat) :
    List CheckInRecord :=
  match getUserStats db userId with
  | none => []
  | some s => (jsSliceNeg s.checkInRecords limit).reverse

-- ---------------------------------------------------------------------
-- String utilities used by src/main.ts (JS `includes`, the regexes
-- `/\/opus\/(\d+)/`, `/t\.bilibili\.com\/(\d+)/` and
-- `/bili_jct=([^;]*)/`).
-- ---------------------------------------------------------------------

/-- If `pat` is a prefix of `s`, the remainder of `s`. -/
def dropPrefixChars (pat s : List Char) : Option (List Char) :=
  match pat, s with
  | [], s => some s
  | _ :: _, [] => none
  | p :: ps, c :: cs => if p = c then dropPrefixChars ps cs else none

/-- JS `s.includes(pat)`. -/
def strIncludes (pat s : String) : Bool :=
  go pat.data s.data
where
  go (pat : List Char) : List Char → Bool
    | [] => (dropPrefixChars pat []).isSome
    | c :: cs => (dropPrefixChars pat (c :: cs)).isSome || go pat cs

/-- The maximal leading run of decimal digits (the regex `\d+` capture,
empty when the first character is not a digit). -/
def takeDigits : List Char → List Char
  | [] => []
  | c :: cs => if c.isDigit then c :: takeDigits cs else []

/-- First match of the regex `<literal pat>(\d+)` in `s`: scan for an
occurrence of the literal followed by at least one digit and capture the
digit run.  (A literal occurrence followed by a non-digit does not
match; the scan continues, as JS regex search does.) -/
def matchLiteralDigits (pat : String) (s : String) : Option String :=
  go pat.data s.data
where
  go (pat : List Char) : List Char → Option String
    | [] => none
    | c :: cs =>
        match dropPrefixChars pat (c :: cs) with
        | some rest =>
            match takeDigits rest with
            | [] => go pat cs
            | ds => some (String.mk ds)
        | none => go pat cs

/-- The regex `/bili_jct=([^;]*)/` of getCsrfToken: the capture after
the first `bili_jct=` up to (not including) the next `;`.  The source
then checks `match && match[1]`, so an *empty* capture (falsy) throws
just like a missing one; both are modelled as `none`.  The regex stops
at the first occurrence: a later non-empty `bili_jct=` value is not
consulted when the first capture is empty. -/
def getCsrfToken (cookie : String) : Option String :=
  go cookie.data
where
  go : List Char → Option String
    | [] => none
    | c :: cs =>
        match dropPrefixChars "bili_jct=".data (c :: cs) with
        | some rest =>
            match rest.takeWhile (fun ch => ch ≠ ';') with
            | [] => none
            | ds => some (String.mk ds)
        | none => go cs

-- ---------------------------------------------------------------------
-- The untyped dynamic-detail payload (src/main.ts).  The structures
-- mirror exactly the optional fields the code navigates; every probe in
-- the source is an optional-chaining / truthiness test.
-- ---------------------------------------------------------------------

/-- A picture object (`opus.pics[]`, `album.pics[]`, `pic.pics[]`):
the code tests `pic.url` for truthiness and renders width and height. -/
structure JsPic where
  url : Option String
  width : Int
  height : Int
  deriving DecidableEq, Repr

/-- A `draw.items[]` entry: the code tests `item.src`. -/
structure JsDrawItem where
  src : Option String
  width : Int
  height : Int
  deriving DecidableEq, Repr

/-- `module_content.paragraphs[]`: probed as
`paragraph.para_type === 2 && paragraph.pic?.pics`. -/
structure JsParagraph where
  para_type : Option Int
  pic_pics : Option (List JsPic)
  deriving DecidableEq, Repr

/-- `module_author`: the code probes `mid`, `uid`, `face`, `name` and
`pub_ts`. -/
structure JsModuleAuthor where
  mid : Option Int
  uid : Option Int
  face : Option String
  name : Option String
  pub_ts : Option Int
  deriving DecidableEq, Repr

/-- One entry of `modules`: the optional paths read by
checkImagesInDynamicCard, extractAuthorId/Name and the create-time
probe.  A `none` at any level models the corresponding absent field. -/
structure JsModule where
  module_type : Option String
  module_top_display_album_pics : Option (List JsPic)
  module_content_paragraphs : Option (List JsParagraph)
  module_dynamic_major_opus_pics : Option (List JsPic)
  module_dynamic_major_draw_items : Option (List JsDrawItem)
  module_author : Option JsModuleAuthor
  deriving DecidableEq, Repr

/-- `modules` may be an array or a single object; the code normalizes
with `Array.isArray(modules) ? modules : [modules]`. -/
inductive JsModules where
  | arr (l : List JsModule)
  | single (m : JsModule)
  deriving DecidableEq, Repr

def JsModules.toArray : JsModules → List JsModule
  | .arr l => l
  | .single m => [m]

/-- The `basic` object: `rid_str`, `comment_type` and the create-time
fields probed on it. -/
structure JsBasic where
  comment_type : Option Int
  rid_str : Option String
  pub_time : Option Int
  pub_ts : Option Int
  ctime : Option Int
  timestamp : Option Int
  create_time : Option Int
  deriving DecidableEq, Repr

/-- The dynamic-detail item (`response.data?.data?.item`), with the
top-level fields the code probes. -/
structure DynamicData where
  basic : Option JsBasic
  modules : Option JsModules
  pub_time : Option Int
  pub_ts : Option Int
  ctime : Option Int
  timestamp : Option Int
  create_time : Option Int
  uid : Option Int
  mid : Option Int
  desc_user_profile_info_uname : Option String
  deriving DecidableEq, Repr

/-- The DynamicCardItem built by processAtMessage before commenting. -/
structure DynamicCardItem where
  id_str : String
  basic : Option JsBasic
  modules : Option JsModules
  deriving DecidableEq, Repr

/-- The image descriptor produced by checkImagesInDynamicCard. -/
structure DynamicCardImage where
  url : String
  type : String
  description : String
  deriving DecidableEq, Repr

/-- Render pics of one group into DynamicCardImage entries (the index in
the description is 1-based within the group, as in the source). -/
def picsToImages (kind : String) (label : String) (pics : List JsPic) :
    List DynamicCardImage :=
  (pics.enum).filterMap (fun p =>
    match p.2.url with
    | some u =>
        if u ≠ "" then
          some { url := u, type := kind,
                 description := label ++ " " ++ toString (p.1 + 1) ++ " (" ++
                   toString p.2.width ++ "x" ++ toString p.2.height ++ ")" }
        else none
    | none => none)

/-- checkImagesInDynamicCard: collect, per module and in order, the
album pics of a `MODULE_TYPE_TOP` module, the picture-paragraph pics of
a `MODULE_TYPE_CONTENT` module, and the legacy `opus.pics` /
`draw.items` under `module_dynamic.major`. -/
def checkImagesInDynamicCard (card : DynamicCardItem) : List DynamicCardImage :=
  match card.modules with
  | none => []
  | some ms =>
      (ms.toArray).flatMap (fun m =>
        (if m.module_type = some "MODULE_TYPE_TOP" then
          match m.module_top_display_album_pics with
          | some pics => picsToImages "album_pic" "相册图片" pics
          | none => []
        else []) ++
        (if m.module_type = some "MODULE_TYPE_CONTENT" then
          match m.module_content_paragraphs with
          | some paras =>
              paras.flatMap (fun para =>
                if para.para_type = some 2 then
                  match para.pic_pics with
                  | some pics => picsToImages "content_pic" "内容图片" pics
                  | none => []
                else [])
          | none => []
        else []) ++
        (match m.module_dynamic_major_opus_pics with
         | some pics => picsToImages "opus_pic" "Opus图片" pics
         | none => []) ++
        (match m.module_dynamic_major_draw_items with
         | some items =>
             (items.enum).filterMap (fun it =>
               match it.2.src with
               | some u =>
                   if u ≠ "" then
                     some { url := u, type := "draw_pic",
                            description := "Draw图片 " ++ toString (it.1 + 1) ++
                              " (" ++ toString it.2.width ++ "x" ++
                              toString it.2.height ++ ")" }
                   else none
               | none => none)
         | none => []))

/-- The module scan of extractAuthorId: the first module whose
`module_author.mid` (then `.uid`) is truthy yields `String(mid)`. -/
def findAuthorIdInModules : List JsModule → Option String
  | [] => none
  | m :: rest =>
      match m.module_author with
      | some a =>
          if jsTruthyNum a.mid then some (toString ((a.mid).getD 0))
          else if jsTruthyNum a.uid then some (toString ((a.uid).getD 0))
          else findAuthorIdInModules rest
      | none => findAuthorIdInModules rest

/-- extractAuthorId: modules scan first, then the top-level `uid` and
`mid` fields; `none` models the `return null`. -/
def extractAuthorId (d : DynamicData) : Option String :=
  match (match d.modules with
         | some ms => findAuthorIdInModules ms.toArray
         | none => none) with
  | some s => some s
  | none =>
      if jsTruthyNum d.uid then some (toString ((d.uid).getD 0))
      else if jsTruthyNum d.mid then some (toString ((d.mid).getD 0))
      else none

/-- The module scan of extractAuthorName: first truthy
`module_author.name`. -/
def findAuthorNameInModules : List JsModule → Option String
  | [] => none
  | m :: rest =>
      match m.module_author with
      | some a =>
          if jsTruthyStr a.name then some ((a.name).getD "")
          else findAuthorNameInModules rest
      | none => findAuthorNameInModules rest

/-- extractAuthorName: modules scan, then
`desc?.user_profile?.info?.uname`. -/
def extractAuthorName (d : DynamicData) : Option String :=
  match (match d.modules with
         | some ms => findAuthorNameInModules ms.toArray
         | none => none) with
  | some s => some s
  | none =>
      if jsTruthyStr d.desc_user_profile_info_uname then
        some ((d.desc_user_profile_info_uname).getD "")
      else none

-- ---------------------------------------------------------------------
-- Create-time extraction in processAtMessage: the ordered probe of the
-- fields `pub_time, pub_ts, ctime, timestamp, create_time` on the item,
-- then on `item.basic`, then `module_author.pub_ts`; each hit is a
-- second-level timestamp multiplied by 1000.
-- ---------------------------------------------------------------------

/-- First truthy value in an ordered list of optional numbers. -/
def firstTruthyNum : List (Option Int) → Option Int
  | [] => none
  | o :: rest => if jsTruthyNum o then some (o.getD 0) else firstTruthyNum rest

/-- The modules scan for a truthy `module_author.pub_ts`. -/
def findPubTsInModules : List JsModule → Option Int
  | [] => none
  | m :: rest =>
      match m.module_author with
      | some a =>
          if jsTruthyNum a.pub_ts then some ((a.pub_ts).getD 0)
          else findPubTsInModules rest
      | none => findPubTsInModules rest

/-- The resolved creation time in milliseconds, or `none` when no time
field was found (the code then assumes the dynamic is new). -/
def getCreateTime (d : DynamicData) : Option Int :=
  let c1 := firstTruthyNum [d.pub_time, d.pub_ts, d.ctime, d.timestamp, d.create_time]
  let c2 := match c1 with
    | some v => some v
    | none =>
        match d.basic with
        | some b => firstTruthyNum [b.pub_time, b.pub_ts, b.ctime, b.timestamp, b.create_time]
        | none => none
  let c3 := match c2 with
    | some v => some v
    | none =>
        match d.modules with
        | some ms => findPubTsInModules ms.toArray
        | none => none
  c3.map (fun v => v * 1000)

def oneDayMs : Int := 24 * 60 * 60 * 1000

-- ---------------------------------------------------------------------
-- Workflow (src/main.ts).  The external collaborators (Bilibili APIs,
-- the cloud analyzer, the image generator and uploader) are modelled as
-- oracle responses in `Env`; `.error ()` models a thrown/rejected call.
-- Every external call and store mutation is logged as an event.
-- ---------------------------------------------------------------------

/-- The configuration fields the workflow reads (src/config.ts). -/
structure Config where
  cookie : String
  uidToMonitor : String
  commentText : String
  enableCloudAnalysis : Bool
  enableCheckInImage : Bool
  deriving Repr

/-- A comment reply: `member.mid`, `content.message` and the optional
nested `replies` (the code inspects one nesting level). -/
inductive CommentReply where
  | mk (mid : String) (message : String) (replies : Option (List CommentReply))

def CommentReply.mid : CommentReply → String
  | .mk m _ _ => m

def CommentReply.replies : CommentReply → Option (List CommentReply)
  | .mk _ _ r => r

/-- The loop over fetched comments: the monitored uid as a top-level
commenter or inside a first-level sub-reply list. -/
def hasUserComment (uidToMonitor : String) (cs : List CommentReply) : Bool :=
  cs.any (fun c =>
    c.mid = uidToMonitor ||
    (match c.replies with
     | some subs => subs.any (fun sr => sr.mid = uidToMonitor)
     | none => false))

/-- Result of `analyzeMultipleImagesWithTypes` (src/cloudAnalyzer.ts). -/
structure AnalysisResult where
  cloudTypes : List CloudType
  comment : String
  deriving Repr

/-- Result of a successful image upload. -/
structure ImageInfo where
  img_src : String
  img_width : Int
  img_height : Int
  img_size : Int
  deriving DecidableEq, Repr

/-- An @-message from the feed (only the fields the workflow reads). -/
structure AtUser where
  nickname : String
  deriving DecidableEq, Repr

structure AtItem where
  uri : String
  business_id : Int
  title : String
  deriving DecidableEq, Repr

structure AtMessage where
  id : Nat
  user : AtUser
  item : AtItem
  deriving DecidableEq, Repr

/-- Oracle responses of the external collaborators for one message. -/
structure Env where
  opusDetail : Except Unit (Option DynamicData)
  generalDetail : Except Unit (Option DynamicData)
  comments : Except Unit (Option (List CommentReply))
  analyzer : Except Unit AnalysisResult
  imageGen : Except Unit String
  upload : Option ImageInfo
  postCode : Except Unit Int

/-- Observable external calls and store writes of one processing step. -/
inductive Ev where
  | fetchOpusDetail
  | fetchDynamicDetail
  | getComments
  | analyze (urls : List String)
  | genImage
  | uploadImage
  | publish (message : String) (withPicture : Bool)
  | appendStats (userId : String)
  | rollbackStats (userId : String)
  | writeDaily (authorId : String)
  | writeLedger (atMessageId : Nat)
  deriving DecidableEq, Repr

def Ev.isPublish : Ev → Bool
  | .publish _ _ => true
  | _ => false

def Ev.isAppendStats : Ev → Bool
  | .appendStats _ => true
  | _ => false

/-- URI dispatch at the top of processAtMessage. -/
inductive UriParse where
  | opus (id : String)
  | dynamic (id : String)
  | unparseableOpus
  | unparseableDynamic
  | invalid
  deriving DecidableEq, Repr

def parseUri (uri : String) : UriParse :=
  if strIncludes "/opus/" uri then
    match matchLiteralDigits "/opus/" uri with
    | some id => .opus id
    | none => .unparseableOpus
  else if strIncludes "t.bilibili.com/" uri then
    match matchLiteralDigits "t.bilibili.com/" uri with
    | some id => .dynamic id
    | none => .unparseableDynamic
  else .invalid

/-- The analysis step of postComment: with cloud analysis enabled the
images are analyzed (a throw, or no image, aborts the message); with it
disabled the default category and comment text are used. -/
def analysisStep (cfg : Config) (env : Env) (card : DynamicCardItem) :
    Option (List CloudType × String) × List Ev :=
  if cfg.enableCloudAnalysis then
    let images := checkImagesInDynamicCard card
    if images.length > 0 then
      match env.analyzer with
      | .ok res => (some (res.cloudTypes, res.comment),
          [Ev.analyze (images.map (fun i => i.url))])
      | .error _ => (none, [Ev.analyze (images.map (fun i => i.url))])
    else (none, [])
  else
    (some ([CloudType.mk "云朵" (0.5 : ℚ) (some "云朵分析功能未启用")],
      cfg.commentText), [])

/-- The publish call did not confirmably succeed: a thrown request or a
non-zero response code. -/
def postFailed (env : Env) : Bool :=
  match env.postCode with
  | .ok code => code ≠ 0
  | .error _ => true

/-- postComment (src/main.ts lines 849-1052): analyze, tentatively
append the check-in, optionally build the image, post, and on a
non-zero response code or a thrown post roll the append back; the daily
mark is written only after a confirmed success. -/
def postComment (cfg : Config) (env : Env) (today : JsDate) (nowTs : Int)
    (db : DB) (_ty : Int) (_rid : String) (card : DynamicCardItem)
    (dynamicData : Option DynamicData) : Bool × DB × List Ev :=
  match getCsrfToken cfg.cookie with
  | none => (false, db, [])
  | some _csrf =>
      let authorId : Option String := dynamicData.bind extractAuthorId
      let step1 : Option (List CloudType × String) × List Ev :=
        analysisStep cfg env card
      match step1.1 with
      | none => (false, db, step1.2)
      | some res =>
          let cloudTypes := res.1
          let commentText := res.2
          let saved : DB × Bool × Option UserStats × List Ev :=
            match authorId with
            | some aId =>
                if cloudTypes.length > 0 then
                  let images := checkImagesInDynamicCard card
                  let authorName :=
                    jsOrStr (dynamicData.bind extractAuthorName) ("用户" ++ aId)
                  let checkInRecord : CheckInRecord :=
                    CheckInRecord.mk card.id_str nowTs cloudTypes
                      (images.length : Int) commentText
                  let db1 := recordCheckIn db aId authorName checkInRecord
                  (db1, true, getUserStats db1 aId, [Ev.appendStats aId])
                else (db, false, none, [])
            | none => (db, false, none, [])
          let db1 := saved.1
          let recordSaved := saved.2.1
          let userStats := saved.2.2.1
          let imgs : Option ImageInfo × List Ev :=
            match userStats with
            | some _us =>
                if cfg.enableCheckInImage then
                  match env.imageGen with
                  | .ok _path => (env.upload, [Ev.genImage, Ev.uploadImage])
                  | .error _ => (none, [Ev.genImage])
                else (none, [])
            | none => (none, [])
          let pubEv := Ev.publish commentText imgs.1.isSome
          let evsPre := step1.2 ++ saved.2.2.2 ++ imgs.2 ++ [pubEv]
          let rolledBack : DB × List Ev :=
            if recordSaved then
              match authorId with
              | some aId => ((rollbackLastCheckIn db1 aId).2, [Ev.rollbackStats aId])
              | none => (db1, [])
            else (db1, [])
          match env.postCode with
          | .ok code =>
              if code = 0 then
                match authorId with
                | some aId =>
                    (true, recordDailyComment db1 aId today nowTs,
                      evsPre ++ [Ev.writeDaily aId])
                | none => (true, db1, evsPre)
              else (false, rolledBack.1, evsPre ++ rolledBack.2)
          | .error _ => (false, rolledBack.1, evsPre ++ rolledBack.2)

/-- The already-commented scan over the fetched comment response
(`response.data?.data?.replies` may be absent). -/
def alreadyCommented (uidToMonitor : String)
    (co : Option (List CommentReply)) : Bool :=
  match co with
  | some cs => hasUserComment uidToMonitor cs
  | none => false

/-- checkIfUserCommentedAndPost (src/main.ts lines 790-843): the
no-image short-circuit, the per-author daily gate, the already-commented
check, then postComment; a thrown comments fetch returns failure. -/
def checkIfUserCommentedAndPost (cfg : Config) (env : Env) (today : JsDate)
    (nowTs : Int) (db : DB) (ty : Int) (rid : String) (card : DynamicCardItem)
    (dynamicData : Option DynamicData) : Bool × DB × List Ev :=
  let images := checkImagesInDynamicCard card
  if images.length = 0 then (true, db, [])
  else
    let gateHit : Bool :=
      match dynamicData with
      | some dd =>
          match extractAuthorId dd with
          | some aId => hasUserCommentedToday db aId today
          | none => false
      | none => false
    if gateHit then (true, db, [])
    else
      match env.comments with
      | .error _ => (false, db, [Ev.getComments])
      | .ok co =>
          let already := alreadyCommented cfg.uidToMonitor co
          if already then (true, db, [Ev.getComments])
          else
            let r := postComment cfg env today nowTs db ty rid card dynamicData
            (r.1, r.2.1, Ev.getComments :: r.2.2)

/-- The ProcessedAtMessage record written by processAtMessage. -/
def mkProcessedMessage (msg : AtMessage) (dynId : String) (nowTs : Int) :
    ProcessedAtMessage :=
  ProcessedAtMessage.mk msg.id dynId nowTs msg.user.nickname msg.item.uri

/-- The DynamicCardItem built at src/main.ts line 716: the item's own
`basic` or a default from the message, plus the item's `modules`. -/
def mkCard (dynamicId : String) (msg : AtMessage) (dd : DynamicData) :
    DynamicCardItem :=
  let dfltBasic : JsBasic :=
    JsBasic.mk (some msg.item.business_id) (some dynamicId) none none none none none
  DynamicCardItem.mk dynamicId
    (some (match dd.basic with
           | some b => b
           | none => dfltBasic))
    dd.modules

/-- The detail fetch: for an opus URI the opus API first (a throw or a
missing item falls through), then the general dynamic API. -/
def fetchDetail (env : Env) (isOpus : Bool) : Option DynamicData × List Ev :=
  let first : Option DynamicData × List Ev :=
    if isOpus then
      ((match env.opusDetail with
        | .ok o => o
        | .error _ => none), [Ev.fetchOpusDetail])
    else (none, [])
  match first.1 with
  | some dd => (some dd, first.2)
  | none =>
      ((match env.generalDetail with
        | .ok o => o
        | .error _ => none), first.2 ++ [Ev.fetchDynamicDetail])

/-- The freshness check: skip (and still record as processed) when the
resolved creation time is more than 24 hours ago; an unknown creation
time is treated as fresh. -/
def isStale (nowTs : Int) (dd : DynamicData) : Bool :=
  match getCreateTime dd with
  | some ct => nowTs - ct > oneDayMs
  | none => false

/-- The body of processAtMessage after a successful URI parse. -/
def processWithId (cfg : Config) (env : Env) (today : JsDate) (nowTs : Int)
    (db : DB) (msg : AtMessage) (isOpus : Bool) (dynamicId : String) :
    DB × List Ev :=
  let fr := fetchDetail env isOpus
  match fr.1 with
  | none => (db, fr.2)
  | some dd =>
      if isStale nowTs dd then
        (recordProcessedAtMessage db (mkProcessedMessage msg dynamicId nowTs),
          fr.2 ++ [Ev.writeLedger msg.id])
      else
        let card := mkCard dynamicId msg dd
        let commentType := jsOrNum (card.basic.bind (fun b => b.comment_type))
          msg.item.business_id
        let commentRid := jsOrStr (card.basic.bind (fun b => b.rid_str)) dynamicId
        let r := checkIfUserCommentedAndPost cfg env today nowTs db commentType
          commentRid card (some dd)
        if r.1 then
          (recordProcessedAtMessage r.2.1 (mkProcessedMessage msg dynamicId nowTs),
            fr.2 ++ r.2.2 ++ [Ev.writeLedger msg.id])
        else (r.2.1, fr.2 ++ r.2.2)

/-- processAtMessage (src/main.ts lines 544-784): URI dispatch; an
unparseable or unsupported URI is recorded as processed with a sentinel
dynamic id, a parsed one goes through fetch/freshness/comment-and-post. -/
def processAtMessage (cfg : Config) (env : Env) (today : JsDate) (nowTs : Int)
    (db : DB) (msg : AtMessage) : DB × List Ev :=
  match parseUri msg.item.uri with
  | .opus dynamicId => processWithId cfg env today nowTs db msg true dynamicId
  | .dynamic dynamicId => processWithId cfg env today nowTs db msg false dynamicId
  | .unparseableOpus =>
      (recordProcessedAtMessage db (mkProcessedMessage msg "unparseable_opus_uri" nowTs),
        [Ev.writeLedger msg.id])
  | .unparseableDynamic =>
      (recordProcessedAtMessage db (mkProcessedMessage msg "unparseable_uri" nowTs),
        [Ev.writeLedger msg.id])
  | .invalid =>
      (recordProcessedAtMessage db (mkProcessedMessage msg "invalid_uri" nowTs),
        [Ev.writeLedger msg.id])

/-- One iteration of the checkAndComment loop (src/main.ts lines
516-531): an id already in the ledger is skipped before anything else
runs; otherwise the message is processed. -/
def checkAndCommentStep (cfg : Config) (env : Env) (today : JsDate)
    (nowTs : Int) (db : DB) (msg : AtMessage) : DB × List Ev :=
  if isAtMessageProcessed db msg.id then (db, [])
  else processAtMessage cfg env today nowTs db msg

/-- One full poll cycle over the fetched feed, sequential in feed order,
threading the store. -/
def checkAndComment (cfg : Config) (envOf : AtMessage → Env) (today : JsDate)
    (nowTs : Int) (db : DB) (msgs : List AtMessage) : DB × List Ev :=
  msgs.foldl (fun acc msg =>
    let r := checkAndCommentStep cfg (envOf msg) today nowTs acc.1 msg
    (r.1, acc.2 ++ r.2)) (db, [])

-- ---------------------------------------------------------------------
-- Helper notions used to state and prove the claims.
-- ---------------------------------------------------------------------

/-- Number of entries of the record's category list carrying a label. -/
def countLabel (cts : List CloudType) (t : String) : Nat :=
  (cts.filter (fun c => c.type = t)).length

/-- Pointwise effect of the append histogram update on one label's
count: unchanged when the label does not occur, otherwise the stored
count (0 when absent) plus the number of occurrences. -/
def addN (o : Option Int) (n : Nat) : Option Int :=
  if n = 0 then o else some (o.getD 0 + n)

/-- Pointwise effect of one rollback decrement on one label's count:
skip when absent or zero, delete when the decrement reaches `≤ 0`. -/
def decStep (o : Option Int) : Option Int :=
  match o with
  | some v => if v ≠ 0 then (if v - 1 ≤ 0 then none else some (v - 1)) else some v
  | none => none

/-- `n` rollback decrements on one label's count. -/
def decN (o : Option Int) : Nat → Option Int
  | 0 => o
  | n + 1 => decN (decStep o) n

/-- Every label present in a histogram has a strictly positive count. -/
def HistPositive (h : List (String × Int)) : Prop :=
  ∀ t v, alGet h t = some v → 0 < v

/-- Every stored user's histogram is positive. -/
def StatsHistInv (db : DB) : Prop :=
  ∀ uid s, getUserStats db uid = some s → HistPositive s.cloudTypeStats

/-- The statistics-aggregator operations of claim C10. -/
inductive StatsOp where
  | checkIn (userId userName : String) (r : CheckInRecord)
  | rollback (userId : String)

def applyStatsOp (db : DB) : StatsOp → DB
  | .checkIn u n r => recordCheckIn db u n r
  | .rollback u => (rollbackLastCheckIn db u).2

def applyStatsOps (db : DB) (ops : List StatsOp) : DB :=
  ops.foldl applyStatsOp db

-- Calendar successor, formalizing "day D+1" of the daily-gate claim
-- (the Gregorian calendar of the JS Date the source relies on).

def isLeapYear (y : Nat) : Bool :=
  (y % 4 = 0 && y % 100 ≠ 0) || y % 400 = 0

/-- Days in a month; the month is 0-based as in JS `getMonth`. -/
def daysInMonth (y m : Nat) : Nat :=
  if m = 1 then (if isLeapYear y then 29 else 28)
  else if m = 3 ∨ m = 5 ∨ m = 8 ∨ m = 10 then 30
  else 31

/-- A real calendar date as produced by a JS `Date`. -/
def ValidDate (d : JsDate) : Prop :=
  d.month ≤ 11 ∧ 1 ≤ d.day ∧ d.day ≤ daysInMonth d.year d.month

/-- The next calendar day. -/
def nextDay (d : JsDate) : JsDate :=
  if d.day < daysInMonth d.year d.month then JsDate.mk d.year d.month (d.day + 1)
  else if d.month < 11 then JsDate.mk d.year (d.month + 1) 1
  else JsDate.mk (d.year + 1) 0 1

-- ---------------------------------------------------------------------
-- Concrete sample inputs used by witnesses and counterexamples.
-- ---------------------------------------------------------------------

/-- A minimal check-in record with a given timestamp. -/
def mkRec (i : Int) : CheckInRecord :=
  CheckInRecord.mk "d" i [] 0 ""

/-- A user that already holds a full 100-record window. -/
def fullStats : UserStats :=
  UserStats.mk "alice" 100 0 [] 0 99 ((List.range 100).map (fun i => mkRec i))

def dbFull : DB := DB.mk [] [] [("u", fullStats)] []

/-- One check-in and one stored record, for the small witnesses. -/
def recA : CheckInRecord :=
  CheckInRecord.mk "dynA" 10 [CloudType.mk "积云" (0.9 : ℚ) none] 2 "nice clouds"

def recB : CheckInRecord :=
  CheckInRecord.mk "dynB" 20 [CloudType.mk "积云" (0.7 : ℚ) none, CloudType.mk "层云" (0.6 : ℚ) none] 1 "more clouds"

def dbOne : DB := recordCheckIn emptyDB "42" "Alice" recA

/-- A dynamic-detail payload with one author module and one opus pic. -/
def moduleW : JsModule :=
  JsModule.mk none none none (some [JsPic.mk (some "http://img/1.jpg") 100 200]) none
    (some (JsModuleAuthor.mk (some 42) none none (some "Alice") none))

def ddW : DynamicData :=
  DynamicData.mk none (some (JsModules.arr [moduleW])) none none none none none
    none none none

/-- A dynamic-detail payload resolving to no images at all. -/
def moduleN : JsModule :=
  JsModule.mk none none none none none
    (some (JsModuleAuthor.mk (some 42) none none (some "Alice") none))

def ddN : DynamicData :=
  DynamicData.mk none (some (JsModules.arr [moduleN])) none none none none none
    none none none

def msgW : AtMessage :=
  AtMessage.mk 77 (AtUser.mk "fan") (AtItem.mk "https://www.bilibili.com/opus/555" 17 "t")

def cfgW : Config :=
  Config.mk "x; bili_jct=tok; y" "monitor" "好漂亮的云" false false

/-- Oracles: detail fetch succeeds, no existing comments, the publish
call returns a non-zero code (failure). -/
def envFailPost : Env :=
  Env.mk (Except.ok (some ddW)) (Except.ok none) (Except.ok (some []))
    (Except.error ()) (Except.error ()) none (Except.ok (-404))

/-- Oracles for the no-image payload (the publish oracle is irrelevant
on that path). -/
def envNoImages : Env :=
  Env.mk (Except.ok (some ddN)) (Except.ok none) (Except.ok (some []))
    (Except.error ()) (Except.error ()) none (Except.ok 0)

def todayW : JsDate := JsDate.mk 2024 5 15

-- ---------------------------------------------------------------------
-- Lemmas and claim theorems.
-- ---------------------------------------------------------------------

@[simp] theorem alGet_nil {κ α : Type} [DecidableEq κ] (k : κ) :
    alGet ([] : List (κ × α)) k = none := rfl

@[simp] theorem alGet_alPut_self {κ α : Type} [DecidableEq κ]
    (m : List (κ × α)) (k : κ) (v : α) : alGet (alPut m k v) k = some v := by
  induction m with
  | nil => simp [alGet, alPut]
  | cons hd tl ih =>
      obtain ⟨k', v'⟩ := hd
      by_cases h : k' = k <;> simp [alGet, alPut, h, ih]

@[simp] theorem alGet_alPut_ne {κ α : Type} [DecidableEq κ]
    (m : List (κ × α)) (k k' : κ) (v : α) (h : k ≠ k') :
    alGet (alPut m k v) k' = alGet m k' := by
  induction m with
  | nil => simp [alGet, alPut, h]
  | cons hd tl ih =>
      obtain ⟨k0, v0⟩ := hd
      by_cases h0 : k0 = k
      · subst h0; simp [alGet, alPut, h]
      · simp [alGet, alPut, h0, ih]

@[simp] theorem alGet_alDel_self {κ α : Type} [DecidableEq κ]
    (m : List (κ × α)) (k : κ) : alGet (alDel m k) k = none := by
  induction m with
  | nil => simp [alDel]
  | cons hd tl ih =>
      obtain ⟨k0, v0⟩ := hd
      by_cases h0 : k0 = k <;> simp [alGet, alDel, h0, ih]

@[simp] theorem alGet_alDel_ne {κ α : Type} [DecidableEq κ]
    (m : List (κ × α)) (k k' : κ) (h : k ≠ k') :
    alGet (alDel m k) k' = alGet m k' := by
  induction m with
  | nil => simp [alDel]
  | cons hd tl ih =>
      obtain ⟨k0, v0⟩ := hd
      by_cases h0 : k0 = k
      · have h2 : k0 ≠ k' := fun e => h (h0.symm.trans e)
        simp [alGet, alDel, h0, h2, ih, h]
      · by_cases h1 : k0 = k' <;>
          simp [alGet, alDel, h0, h1, ih, Ne.symm h]

@[simp] theorem addN_zero (o : Option Int) : addN o 0 = o := rfl

theorem addN_some (x : Int) (n : Nat) : addN (some x) n = some (x + n) := by
  cases n with
  | zero => simp [addN]
  | succ m => simp [addN]

theorem countLabel_cons (c : CloudType) (rest : List CloudType) (t : String) :
    countLabel (c :: rest) t =
      if c.type = t then countLabel rest t + 1 else countLabel rest t := by
  by_cases hc : c.type = t <;> simp [countLabel, List.filter_cons, hc]

/-- Pointwise characterization of one append histogram step. -/
theorem alGet_histAddStep (h : List (String × Int)) (c : CloudType) (t : String) :
    alGet (histAddStep h c) t =
      if c.type = t then some ((alGet h t).getD 0 + 1) else alGet h t := by
  by_cases hc : c.type = t
  · subst hc; simp [histAddStep]
  · simp [histAddStep, alGet_alPut_ne _ _ _ _ hc, hc]

/-- Pointwise characterization of one rollback histogram step. -/
theorem alGet_histSubStep (h : List (String × Int)) (c : CloudType) (t : String) :
    alGet (histSubStep h c) t =
      if c.type = t then decStep (alGet h t) else alGet h t := by
  by_cases hc : c.type = t
  · subst hc
    simp only [if_pos rfl]
    unfold histSubStep decStep
    cases hm : alGet h c.type with
    | none => simp [hm]
    | some v =>
        by_cases hv : v = 0
        · simp [hm, hv]
        · by_cases hle : v - 1 ≤ 0 <;> simp [hm, hv, hle]
  · simp only [if_neg hc]
    unfold histSubStep
    cases hm : alGet h c.type with
    | none => rfl
    | some v =>
        by_cases hv : v = 0
        · simp [hv]
        · by_cases hle : v - 1 ≤ 0 <;>
            simp [hv, hle, alGet_alDel_ne _ _ _ hc, alGet_alPut_ne _ _ _ _ hc]

/-- The append histogram update adds, for each label, the number of its
occurrences in the record's category list. -/
theorem alGet_histAdd (cts : List CloudType) (h : List (String × Int)) (t : String) :
    alGet (histAdd h cts) t = addN (alGet h t) (countLabel cts t) := by
  induction cts generalizing h with
  | nil => simp [histAdd, countLabel]
  | cons c rest ih =>
      have hfold : histAdd h (c :: rest) = histAdd (histAddStep h c) rest := rfl
      rw [hfold, ih, alGet_histAddStep, countLabel_cons]
      by_cases hc : c.type = t
      · simp only [hc, if_pos rfl, if_true]
        rw [addN_some]
        cases hn : countLabel rest t with
        | zero => simp [addN]
        | succ m =>
            simp only [addN, Nat.succ_ne_zero, if_neg, ite_false]
            congr 1
            push_cast
            ring
      · simp [hc]

/-- The rollback histogram update performs, for each label, one
conditional decrement per occurrence in the rolled-back record. -/
theorem alGet_histSub (cts : List CloudType) (h : List (String × Int)) (t : String) :
    alGet (histSub h cts) t = decN (alGet h t) (countLabel cts t) := by
  induction cts generalizing h with
  | nil => simp [histSub, countLabel, decN]
  | cons c rest ih =>
      have hfold : histSub h (c :: rest) = histSub (histSubStep h c) rest := rfl
      rw [hfold, ih, alGet_histSubStep, countLabel_cons]
      by_cases hc : c.type = t
      · simp only [hc, if_pos rfl, if_true]
        rfl
      · simp [hc]

theorem decStep_some (v : Int) :
    decStep (some v) =
      if v ≠ 0 then (if v - 1 ≤ 0 then none else some (v - 1)) else some v := rfl

/-- Draining a positive count with exactly as many conditional
decrements as were added leaves the original count. -/
theorem decN_peel (g : Int) (hg : 0 < g) (n : Nat) :
    decN (some (g + n)) n = some g := by
  induction n with
  | zero => simp [decN]
  | succ m ih =>
      have h1 : decN (some (g + (m + 1 : Nat))) (m + 1)
          = decN (decStep (some (g + (m + 1 : Nat)))) m := rfl
      have hne : g + ((m + 1 : Nat) : Int) ≠ 0 := by push_cast; omega
      have hnle : ¬ (g + ((m + 1 : Nat) : Int) - 1 ≤ 0) := by push_cast; omega
      have h2 : decStep (some (g + ((m + 1 : Nat) : Int))) = some (g + (m : Nat)) := by
        rw [decStep_some, if_pos hne, if_neg hnle]
        congr 1
        push_cast
        ring
      rw [h1, h2, ih]

/-- A count created purely by the additions is drained to absence. -/
theorem decN_drain (n : Nat) (hn : 1 ≤ n) : decN (some (n : Int)) n = none := by
  induction n with
  | zero => omega
  | succ m ih =>
      cases m with
      | zero => rfl
      | succ k =>
          have h1 : decN (some ((k + 2 : Nat) : Int)) (k + 2)
              = decN (decStep (some ((k + 2 : Nat) : Int))) (k + 1) := rfl
          have hne : ((k + 2 : Nat) : Int) ≠ 0 := by push_cast; omega
          have hnle : ¬ (((k + 2 : Nat) : Int) - 1 ≤ 0) := by push_cast; omega
          have h2 : decStep (some ((k + 2 : Nat) : Int)) = some ((k + 1 : Nat) : Int) := by
            rw [decStep_some, if_pos hne, if_neg hnle]
            congr 1
            push_cast
            ring
          rw [h1, h2]
          exact ih (by omega)

/-- With a positive (or absent) starting count, `n` conditional
decrements undo the addition of `n`. -/
theorem decN_addN (o : Option Int) (n : Nat)
    (hpos : ∀ v, o = some v → 0 < v) : decN (addN o n) n = o := by
  cases ho : o with
  | none =>
      cases hn : n with
      | zero => rfl
      | succ m =>
          have h1 : addN none (m + 1) = some ((m + 1 : Nat) : Int) := by
            simp [addN]
          rw [h1]
          exact decN_drain (m + 1) (by omega)
  | some v =>
      have hv : 0 < v := hpos v ho
      rw [addN_some]
      exact decN_peel v hv n

/-- recordCheckIn on a user with existing stats. -/
theorem getUserStats_recordCheckIn_some (db : DB) (uid name : String)
    (r : CheckInRecord) (s0 : UserStats) (h0 : alGet db.users uid = some s0) :
    getUserStats (recordCheckIn db uid name r) uid = some
      (UserStats.mk name (s0.totalCheckIns + 1) (s0.totalImages + r.imageCount)
        (histAdd s0.cloudTypeStats r.cloudTypes) s0.firstCheckIn r.timestamp
        (if (s0.checkInRecords ++ [r]).length > 100
         then jsSliceNeg (s0.checkInRecords ++ [r]) 100
         else s0.checkInRecords ++ [r])) := by
  simp [getUserStats, recordCheckIn, h0]

/-- recordCheckIn on a user without stats. -/
theorem getUserStats_recordCheckIn_none (db : DB) (uid name : String)
    (r : CheckInRecord) (h0 : alGet db.users uid = none) :
    getUserStats (recordCheckIn db uid name r) uid = some
      (UserStats.mk name 1 (0 + r.imageCount) (histAdd [] r.cloudTypes)
        r.timestamp r.timestamp [r]) := by
  simp [getUserStats, recordCheckIn, h0]

/-- The last element of the bounded append window is the new record. -/
theorem getLast_append_window (l : List CheckInRecord) (r : CheckInRecord) :
    (if (l ++ [r]).length > 100 then jsSliceNeg (l ++ [r]) 100
     else l ++ [r]).getLast? = some r := by
  by_cases h : (l ++ [r]).length > 100
  · have hle : (l ++ [r]).length - 100 ≤ l.length := by
      simp only [List.length_append, List.length_singleton]
      omega
    simp only [h, if_pos, if_true, jsSliceNeg, OfNat.ofNat_ne_zero, ite_false]
    rw [List.drop_append_of_le_length hle]
    exact List.getLast?_concat _
  · simp only [h, if_neg, ite_false]
    exact List.getLast?_concat _

/-- rollbackLastCheckIn on a user whose last record is known. -/
theorem rollbackLastCheckIn_eq (db : DB) (uid : String) (s1 : UserStats)
    (r : CheckInRecord) (h0 : alGet db.users uid = some s1)
    (hlast : s1.checkInRecords.getLast? = some r) :
    rollbackLastCheckIn db uid = (true,
      { db with
        users := alPut db.users uid
          (UserStats.mk s1.userName (s1.totalCheckIns - 1)
            (s1.totalImages - r.imageCount)
            (histSub s1.cloudTypeStats r.cloudTypes) s1.firstCheckIn
            (match s1.checkInRecords.dropLast.getLast? with
             | some r2 => r2.timestamp
             | none => s1.firstCheckIn) s1.checkInRecords.dropLast),
        records := alDel db.records (uid, r.timestamp) }) := by
  simp only [rollbackLastCheckIn, h0, hlast]

/-- rollbackLastCheckIn fails exactly on a missing user or an empty
record window. -/
theorem rollbackLastCheckIn_fail_iff (db : DB) (uid : String) :
    (rollbackLastCheckIn db uid).1 = false ↔
      (getUserStats db uid = none ∨
        ∃ s, getUserStats db uid = some s ∧ s.checkInRecords = []) := by
  unfold getUserStats
  cases h0 : alGet db.users uid with
  | none => simp [rollbackLastCheckIn, h0]
  | some s =>
      cases hlast : s.checkInRecords.getLast? with
      | none =>
          have he : s.checkInRecords = [] := by
            simpa [List.getLast?_eq_none_iff] using hlast
          simp [rollbackLastCheckIn, h0, hlast, he]
      | some r =>
          have hne : s.checkInRecords ≠ [] := by
            intro he
            rw [he] at hlast
            simp at hlast
          simp [rollbackLastCheckIn, h0, hlast, hne]

/-- Neither statistics operation touches the ledger or the daily marks. -/
theorem recordCheckIn_frame (db : DB) (uid name : String) (r : CheckInRecord) :
    (recordCheckIn db uid name r).processed = db.processed ∧
      (recordCheckIn db uid name r).daily = db.daily := by
  constructor <;> rfl

theorem rollbackLastCheckIn_frame (db : DB) (uid : String) :
    ((rollbackLastCheckIn db uid).2).processed = db.processed ∧
      ((rollbackLastCheckIn db uid).2).daily = db.daily := by
  unfold rollbackLastCheckIn
  cases h0 : alGet db.users uid with
  | none => exact ⟨rfl, rfl⟩
  | some s =>
      cases hlast : s.checkInRecords.getLast? with
      | none => simp [hlast]
      | some r => simp [hlast]

/-- Statistics operations on one user do not affect another user. -/
theorem getUserStats_recordCheckIn_ne (db : DB) (uid name : String)
    (r : CheckInRecord) (u' : String) (h : uid ≠ u') :
    getUserStats (recordCheckIn db uid name r) u' = getUserStats db u' := by
  unfold getUserStats recordCheckIn
  cases h0 : alGet db.users uid <;>
    simp [alGet_alPut_ne _ _ _ _ h]

theorem getUserStats_rollbackLastCheckIn_ne (db : DB) (uid u' : String)
    (h : uid ≠ u') :
    getUserStats ((rollbackLastCheckIn db uid).2) u' = getUserStats db u' := by
  unfold getUserStats rollbackLastCheckIn
  cases h0 : alGet db.users uid with
  | none => simp
  | some s =>
      cases hlast : s.checkInRecords.getLast? with
      | none => simp [hlast]
      | some r => simp [hlast, alGet_alPut_ne _ _ _ _ h]

theorem getD_addN (o : Option Int) (n : Nat) :
    (addN o n).getD 0 = o.getD 0 + n := by
  cases n with
  | zero => simp [addN]
  | succ m => simp [addN]

/-- C3: recordCheckIn initializes the stats of a first-time entity with
firstActionAt = lastActionAt = the record's timestamp and totalActions
one; for an existing entity it increments totalActions, adds the
record's unit count, sets lastActionAt, adds one histogram count per
category entry, appends the record evicting the oldest when the window
would exceed 100 (the window never exceeds 100), and in both cases the
display name is overwritten. -/
theorem claim_C3_recordCheckIn (db : DB) (userId userName : String)
    (r : CheckInRecord) :
    ∃ s, getUserStats (recordCheckIn db userId userName r) userId = some s ∧
      s.userName = userName ∧
      s.checkInRecords.length ≤ 100 ∧
      (getUserStats db userId = none →
        s.firstCheckIn = r.timestamp ∧ s.lastCheckIn = r.timestamp ∧
        s.totalCheckIns = 1 ∧ s.checkInRecords = [r]) ∧
      (∀ s0, getUserStats db userId = some s0 →
        s.totalCheckIns = s0.totalCheckIns + 1 ∧
        s.totalImages = s0.totalImages + r.imageCount ∧
        s.lastCheckIn = r.timestamp ∧
        (∀ t, (alGet s.cloudTypeStats t).getD 0 =
          (alGet s0.cloudTypeStats t).getD 0 + countLabel r.cloudTypes t) ∧
        (s0.checkInRecords.length ≤ 99 →
          s.checkInRecords = s0.checkInRecords ++ [r]) ∧
        (s0.checkInRecords.length = 100 →
          s.checkInRecords = s0.checkInRecords.tail ++ [r])) := by
  cases h0 : alGet db.users userId with
  | none =>
      refine ⟨_, getUserStats_recordCheckIn_none db userId userName r h0, rfl, ?_, ?_, ?_⟩
      · simp
      · intro _
        exact ⟨rfl, rfl, rfl, rfl⟩
      · intro s0 hs0
        rw [show getUserStats db userId = alGet db.users userId from rfl, h0] at hs0
        exact absurd hs0 (by simp)
  | some s0' =>
      refine ⟨_, getUserStats_recordCheckIn_some db userId userName r s0' h0, rfl, ?_, ?_, ?_⟩
      · by_cases hbig : (s0'.checkInRecords ++ [r]).length > 100
        · simp only [hbig, if_pos, if_true, jsSliceNeg, OfNat.ofNat_ne_zero, ite_false,
            List.length_drop]
          omega
        · simp only [hbig, if_neg, ite_false]
          omega
      · intro hn
        rw [show getUserStats db userId = alGet db.users userId from rfl, h0] at hn
        exact absurd hn (by simp)
      · intro s0 hs0
        rw [show getUserStats db userId = alGet db.users userId from rfl, h0] at hs0
        have hss : s0' = s0 := by injection hs0
        subst hss
        refine ⟨rfl, rfl, rfl, ?_, ?_, ?_⟩
        · intro t
          show (alGet (histAdd s0'.cloudTypeStats r.cloudTypes) t).getD 0 = _
          rw [alGet_histAdd, getD_addN]
        · intro hlen
          have hbig : ¬ (s0'.checkInRecords ++ [r]).length > 100 := by
            simp only [List.length_append, List.length_singleton]
            omega
          show (if (s0'.checkInRecords ++ [r]).length > 100
              then jsSliceNeg (s0'.checkInRecords ++ [r]) 100
              else s0'.checkInRecords ++ [r]) = _
          rw [if_neg hbig]
        · intro hlen
          have hbig : (s0'.checkInRecords ++ [r]).length > 100 := by
            simp only [List.length_append, List.length_singleton]
            omega
          have hdrop : (s0'.checkInRecords ++ [r]).length - 100 = 1 := by
            simp only [List.length_append, List.length_singleton]
            omega
          show (if (s0'.checkInRecords ++ [r]).length > 100
              then jsSliceNeg (s0'.checkInRecords ++ [r]) 100
              else s0'.checkInRecords ++ [r]) = _
          rw [if_pos hbig]
          unfold jsSliceNeg
          rw [if_neg (by norm_num : ¬ (100 = 0)), hdrop,
            List.drop_append_of_le_length (by omega : (1 : Nat) ≤ s0'.checkInRecords.length),
            List.drop_one]

/-- Witness for C3 at a user that already has one check-in. -/
theorem claim_C3_recordCheckIn_witness :
    ∃ s, getUserStats (recordCheckIn dbOne "42" "Bob" recB) "42" = some s ∧
      s.userName = "Bob" ∧
      s.checkInRecords.length ≤ 100 ∧
      (getUserStats dbOne "42" = none →
        s.firstCheckIn = recB.timestamp ∧ s.lastCheckIn = recB.timestamp ∧
        s.totalCheckIns = 1 ∧ s.checkInRecords = [recB]) ∧
      (∀ s0, getUserStats dbOne "42" = some s0 →
        s.totalCheckIns = s0.totalCheckIns + 1 ∧
        s.totalImages = s0.totalImages + recB.imageCount ∧
        s.lastCheckIn = recB.timestamp ∧
        (∀ t, (alGet s.cloudTypeStats t).getD 0 =
          (alGet s0.cloudTypeStats t).getD 0 + countLabel recB.cloudTypes t) ∧
        (s0.checkInRecords.length ≤ 99 →
          s.checkInRecords = s0.checkInRecords ++ [recB]) ∧
        (s0.checkInRecords.length = 100 →
          s.checkInRecords = s0.checkInRecords.tail ++ [recB])) :=
  claim_C3_recordCheckIn dbOne "42" "Bob" recB

/-- Counterexample to C2 as stated: for an entity holding exactly 100
records (the claim allows length ≤ 100), append pushes the window to
101, the eviction drops the oldest record, and the immediate rollback
pops only the new one — the resulting window has 99 records and is not
identical to the pre-append window (counts still restore). -/
theorem claim_C2_counterexample :
    ¬ ((rollbackLastCheckIn (recordCheckIn dbFull "u" "alice" (mkRec 100)) "u").1 = true ∧
       ∃ s, getUserStats
            (rollbackLastCheckIn (recordCheckIn dbFull "u" "alice" (mkRec 100)) "u").2
            "u" = some s ∧
         s.totalCheckIns = fullStats.totalCheckIns ∧
         s.totalImages = fullStats.totalImages ∧
         (∀ t, alGet s.cloudTypeStats t = alGet fullStats.cloudTypeStats t) ∧
         s.checkInRecords = fullStats.checkInRecords) := by
  intro h
  obtain ⟨-, s, hs, -, -, -, hrec⟩ := h
  have hlen : (getUserStats
      (rollbackLastCheckIn (recordCheckIn dbFull "u" "alice" (mkRec 100)) "u").2
      "u").map (fun u => u.checkInRecords.length) = some 99 := by rfl
  rw [hs] at hlen
  simp at hlen
  rw [hrec] at hlen
  have hlen2 : fullStats.checkInRecords.length = 100 := by rfl
  rw [hlen2] at hlen
  exact absurd hlen (by norm_num)

/-- C2 (amended): for an entity with existing stats whose record window
holds at most 99 records (so the append does not evict; at exactly 100
the eviction makes the window differ, see the counterexample) and whose
histogram counts are positive (the aggregator's own invariant), append
followed by an immediate rollbackLast returns true and restores
totalActions, totalUnits, the category histogram (as a mapping) and the
record sequence; and rollbackLast returns false exactly when no stats
exist or the record window is empty. -/
theorem claim_C2_rollback :
    (∀ db uid name r s0, getUserStats db uid = some s0 →
      s0.checkInRecords.length ≤ 99 →
      HistPositive s0.cloudTypeStats →
      (rollbackLastCheckIn (recordCheckIn db uid name r) uid).1 = true ∧
      ∃ s, getUserStats
          (rollbackLastCheckIn (recordCheckIn db uid name r) uid).2 uid = some s ∧
        s.totalCheckIns = s0.totalCheckIns ∧
        s.totalImages = s0.totalImages ∧
        (∀ t, alGet s.cloudTypeStats t = alGet s0.cloudTypeStats t) ∧
        s.checkInRecords = s0.checkInRecords) ∧
    (∀ db uid, (rollbackLastCheckIn db uid).1 = false ↔
      (getUserStats db uid = none ∨
        ∃ s, getUserStats db uid = some s ∧ s.checkInRecords = [])) := by
  constructor
  · intro db uid name r s0 h0 hlen hpos
    have h0' : alGet db.users uid = some s0 := h0
    have happ := getUserStats_recordCheckIn_some db uid name r s0 h0'
    have hbig : ¬ (s0.checkInRecords ++ [r]).length > 100 := by
      simp only [List.length_append, List.length_singleton]
      omega
    rw [if_neg hbig] at happ
    have hlast : (s0.checkInRecords ++ [r]).getLast? = some r :=
      List.getLast?_concat _
    have hroll := rollbackLastCheckIn_eq (recordCheckIn db uid name r) uid _ r happ hlast
    refine ⟨by rw [hroll], ?_⟩
    refine ⟨_, by rw [hroll]; exact alGet_alPut_self _ _ _, ?_, ?_, ?_, ?_⟩
    · show s0.totalCheckIns + 1 - 1 = s0.totalCheckIns
      ring
    · show s0.totalImages + r.imageCount - r.imageCount = s0.totalImages
      ring
    · intro t
      show alGet (histSub (histAdd s0.cloudTypeStats r.cloudTypes) r.cloudTypes) t
        = alGet s0.cloudTypeStats t
      rw [alGet_histSub, alGet_histAdd]
      exact decN_addN _ _ (fun v hv => hpos t v hv)
    · show (s0.checkInRecords ++ [r]).dropLast = s0.checkInRecords
      exact List.dropLast_concat
  · intro db uid
    exact rollbackLastCheckIn_fail_iff db uid

/-- Witness for C2 (amended): an entity with one record, and the
failing-rollback characterization on the empty store. -/
theorem claim_C2_rollback_witness :
    ((rollbackLastCheckIn (recordCheckIn dbOne "42" "Bob" recB) "42").1 = true ∧
      ∃ s, getUserStats
          (rollbackLastCheckIn (recordCheckIn dbOne "42" "Bob" recB) "42").2 "42" = some s ∧
        s.totalCheckIns = (UserStats.mk "Alice" 1 2 [("积云", 1)] 10 10 [recA]).totalCheckIns ∧
        s.totalImages = (UserStats.mk "Alice" 1 2 [("积云", 1)] 10 10 [recA]).totalImages ∧
        (∀ t, alGet s.cloudTypeStats t =
          alGet (UserStats.mk "Alice" 1 2 [("积云", 1)] 10 10 [recA]).cloudTypeStats t) ∧
        s.checkInRecords = (UserStats.mk "Alice" 1 2 [("积云", 1)] 10 10 [recA]).checkInRecords) ∧
    ((rollbackLastCheckIn emptyDB "nobody").1 = false ↔
      (getUserStats emptyDB "nobody" = none ∨
        ∃ s, getUserStats emptyDB "nobody" = some s ∧ s.checkInRecords = [])) := by
  constructor
  · exact claim_C2_rollback.1 dbOne "42" "Bob" recB
      (UserStats.mk "Alice" 1 2 [("积云", 1)] 10 10 [recA]) (by rfl) (by norm_num)
      (by
        intro t v h
        by_cases ht : "积云" = t
        · simp [alGet, ht] at h
          omega
        · simp [alGet, ht] at h)
  · exact claim_C2_rollback.2 emptyDB "nobody"

/-- C9: a successful rollbackLast leaves the entity's displayName and
firstActionAt untouched (in particular a displayName overwritten by the
rolled-back append stays overwritten). -/
theorem claim_C9_rollback_preserves_name_first (db : DB) (uid : String)
    (h : (rollbackLastCheckIn db uid).1 = true) :
    ∃ s0 s1, getUserStats db uid = some s0 ∧
      getUserStats (rollbackLastCheckIn db uid).2 uid = some s1 ∧
      s1.userName = s0.userName ∧ s1.firstCheckIn = s0.firstCheckIn := by
  cases h0 : alGet db.users uid with
  | none =>
      rw [show rollbackLastCheckIn db uid = (false, db) by
        simp [rollbackLastCheckIn, h0]] at h
      simp at h
  | some s0 =>
      cases hlast : s0.checkInRecords.getLast? with
      | none =>
          rw [show rollbackLastCheckIn db uid = (false, db) by
            simp [rollbackLastCheckIn, h0, hlast]] at h
          simp at h
      | some r =>
          have hroll := rollbackLastCheckIn_eq db uid s0 r h0 hlast
          refine ⟨s0, UserStats.mk s0.userName (s0.totalCheckIns - 1)
            (s0.totalImages - r.imageCount)
            (histSub s0.cloudTypeStats r.cloudTypes) s0.firstCheckIn
            (match s0.checkInRecords.dropLast.getLast? with
             | some r2 => r2.timestamp
             | none => s0.firstCheckIn) s0.checkInRecords.dropLast,
            h0, ?_, rfl, rfl⟩
          rw [hroll]
          exact alGet_alPut_self _ _ _

/-- Witness for C9: rolling back the single check-in of `dbOne`. -/
theorem claim_C9_witness :
    ∃ s0 s1, getUserStats dbOne "42" = some s0 ∧
      getUserStats (rollbackLastCheckIn dbOne "42").2 "42" = some s1 ∧
      s1.userName = s0.userName ∧ s1.firstCheckIn = s0.firstCheckIn :=
  claim_C9_rollback_preserves_name_first dbOne "42" (by rfl)

theorem decN_pos (o : Option Int) (n : Nat)
    (hp : ∀ v, o = some v → 0 < v) : ∀ v, decN o n = some v → 0 < v := by
  induction n generalizing o with
  | zero => exact hp
  | succ m ih =>
      intro v hv
      refine ih (decStep o) ?_ v hv
      intro w hw
      cases o with
      | none => simp [decStep] at hw
      | some u =>
          have hu : 0 < u := hp u rfl
          rw [decStep_some, if_pos (by omega : u ≠ 0)] at hw
          by_cases hle : u - 1 ≤ 0
          · rw [if_pos hle] at hw
            exact absurd hw (by simp)
          · rw [if_neg hle] at hw
            injection hw with hw
            omega

theorem histAdd_pos (h : List (String × Int)) (cts : List CloudType)
    (hpos : HistPositive h) : HistPositive (histAdd h cts) := by
  intro t v hv
  rw [alGet_histAdd] at hv
  cases hn : countLabel cts t with
  | zero =>
      rw [hn] at hv
      exact hpos t v hv
  | succ m =>
      rw [hn] at hv
      have hg : (0 : Int) ≤ (alGet h t).getD 0 := by
        cases ho : alGet h t with
        | none => simp
        | some w => simpa using le_of_lt (hpos t w ho)
      rw [show addN (alGet h t) (m + 1) = some ((alGet h t).getD 0 + (m + 1 : Nat)) by
        simp [addN]] at hv
      injection hv with hv
      push_cast at hv
      omega

theorem histSub_pos (h : List (String × Int)) (cts : List CloudType)
    (hpos : HistPositive h) : HistPositive (histSub h cts) := by
  intro t v hv
  rw [alGet_histSub] at hv
  exact decN_pos (alGet h t) (countLabel cts t) (fun w hw => hpos t w hw) v hv

theorem StatsHistInv_applyStatsOp (db : DB) (hinv : StatsHistInv db)
    (op : StatsOp) : StatsHistInv (applyStatsOp db op) := by
  cases op with
  | checkIn u n r =>
      intro uid s hs
      by_cases huid : u = uid
      · subst huid
        have hs1 : getUserStats (recordCheckIn db u n r) u = some s := hs
        cases h0 : alGet db.users u with
        | none =>
            rw [getUserStats_recordCheckIn_none db u n r h0] at hs1
            injection hs1 with hs1
            subst hs1
            exact histAdd_pos [] r.cloudTypes (fun t v hv => by simp at hv)
        | some s0 =>
            rw [getUserStats_recordCheckIn_some db u n r s0 h0] at hs1
            injection hs1 with hs1
            subst hs1
            exact histAdd_pos s0.cloudTypeStats r.cloudTypes (hinv u s0 h0)
      · rw [show applyStatsOp db (StatsOp.checkIn u n r) = recordCheckIn db u n r from rfl,
          getUserStats_recordCheckIn_ne db u n r uid huid] at hs
        exact hinv uid s hs
  | rollback u =>
      intro uid s hs
      by_cases huid : u = uid
      · subst huid
        cases h0 : alGet db.users u with
        | none =>
            rw [show applyStatsOp db (StatsOp.rollback u) = db by
              simp [applyStatsOp, rollbackLastCheckIn, h0]] at hs
            exact hinv u s hs
        | some s0 =>
            cases hlast : s0.checkInRecords.getLast? with
            | none =>
                rw [show applyStatsOp db (StatsOp.rollback u) = db by
                  simp [applyStatsOp, rollbackLastCheckIn, h0, hlast]] at hs
                exact hinv u s hs
            | some r =>
                have hroll := rollbackLastCheckIn_eq db u s0 r h0 hlast
                rw [show applyStatsOp db (StatsOp.rollback u)
                    = (rollbackLastCheckIn db u).2 from rfl, hroll] at hs
                have hs2 : alGet (alPut db.users u
                    (UserStats.mk s0.userName (s0.totalCheckIns - 1)
                      (s0.totalImages - r.imageCount)
                      (histSub s0.cloudTypeStats r.cloudTypes) s0.firstCheckIn
                      (match s0.checkInRecords.dropLast.getLast? with
                       | some r2 => r2.timestamp
                       | none => s0.firstCheckIn) s0.checkInRecords.dropLast)) u
                    = some s := hs
                rw [alGet_alPut_self] at hs2
                injection hs2 with hs2
                subst hs2
                exact histSub_pos s0.cloudTypeStats r.cloudTypes (hinv u s0 h0)
      · rw [show applyStatsOp db (StatsOp.rollback u)
            = (rollbackLastCheckIn db u).2 from rfl,
          getUserStats_rollbackLastCheckIn_ne db u uid huid] at hs
        exact hinv uid s hs

/-- C10: after any sequence of append and rollback operations starting
from the empty store, every label present in any entity's category
histogram has a strictly positive count. -/
theorem claim_C10_histogram_positive (ops : List StatsOp) :
    StatsHistInv (applyStatsOps emptyDB ops) := by
  have hstep : ∀ (l : List StatsOp) (db : DB), StatsHistInv db →
      StatsHistInv (applyStatsOps db l) := by
    intro l
    induction l with
    | nil => intro db h; exact h
    | cons op rest ih =>
        intro db h
        exact ih (applyStatsOp db op) (StatsHistInv_applyStatsOp db h op)
  refine hstep ops emptyDB ?_
  intro uid s hs
  simp [getUserStats, emptyDB] at hs

/-- Witness for C10 on a two-operation history. -/
theorem claim_C10_witness :
    StatsHistInv (applyStatsOps emptyDB
      [StatsOp.checkIn "42" "Alice" recA, StatsOp.rollback "42"]) :=
  claim_C10_histogram_positive
    [StatsOp.checkIn "42" "Alice" recA, StatsOp.rollback "42"]

/-- Counterexample to C7 as stated: on the empty store no record exists
for event id 5, yet deleteProcessed returns true (Level `del` is a
silent no-op on a missing key), contradicting "returns false when no
record exists". -/
theorem claim_C7_counterexample :
    ¬ (getProcessedAtMessage emptyDB 5 = none →
        (deleteProcessedAtMessage emptyDB 5).1 = false) := by
  intro h
  have := h (by rfl)
  simp [deleteProcessedAtMessage] at this

/-- C7 (amended): deleteProcessed removes any record for the event id
and returns true whenever the underlying delete succeeds — also when no
record existed; other ids are untouched. -/
theorem claim_C7_deleteProcessed (db : DB) (atMessageId : Nat) :
    (deleteProcessedAtMessage db atMessageId).1 = true ∧
    getProcessedAtMessage (deleteProcessedAtMessage db atMessageId).2 atMessageId = none ∧
    (∀ id2, id2 ≠ atMessageId →
      getProcessedAtMessage (deleteProcessedAtMessage db atMessageId).2 id2 =
        getProcessedAtMessage db id2) := by
  refine ⟨rfl, ?_, ?_⟩
  · show alGet (alDel db.processed atMessageId) atMessageId = none
    exact alGet_alDel_self _ _
  · intro id2 h2
    show alGet (alDel db.processed atMessageId) id2 = alGet db.processed id2
    exact alGet_alDel_ne _ _ _ (fun e => h2 e.symm)

/-- Witness for C7 (amended) on a store holding id 7. -/
theorem claim_C7_witness :
    ((deleteProcessedAtMessage
        (recordProcessedAtMessage emptyDB (mkProcessedMessage msgW "555" 3)) 77).1 = true ∧
      getProcessedAtMessage (deleteProcessedAtMessage
        (recordProcessedAtMessage emptyDB (mkProcessedMessage msgW "555" 3)) 77).2 77 = none ∧
      (∀ id2, id2 ≠ 77 →
        getProcessedAtMessage (deleteProcessedAtMessage
          (recordProcessedAtMessage emptyDB (mkProcessedMessage msgW "555" 3)) 77).2 id2 =
        getProcessedAtMessage
          (recordProcessedAtMessage emptyDB (mkProcessedMessage msgW "555" 3)) id2)) :=
  claim_C7_deleteProcessed
    (recordProcessedAtMessage emptyDB (mkProcessedMessage msgW "555" 3)) 77

/-- Counterexample to C8 as stated: with one stored record and the
non-negative limit 0, `slice(-0)` is `slice(0)` — the whole window —
so the result has length 1, not at most 0. -/
theorem claim_C8_counterexample :
    ¬ ((getRecentCheckIns dbOne "42" 0).length ≤ 0) := by
  intro h
  have h1 : (getRecentCheckIns dbOne "42" 0).length = 1 := by rfl
  omega

/-- C8 (amended): for every positive limit, getRecent returns the
entity's records most-recent-first (the reverse of the append-ordered
window, truncated) with length at most the limit, and the empty
sequence when no stats exist.  (At limit 0 the code returns the whole
window reversed, see the counterexample.) -/
theorem claim_C8_getRecent (db : DB) (userId : String) (limit : Nat)
    (hpos : 1 ≤ limit) :
    (getRecentCheckIns db userId limit).length ≤ limit ∧
    (∀ s, getUserStats db userId = some s →
      getRecentCheckIns db userId limit = s.checkInRecords.reverse.take limit) ∧
    (getUserStats db userId = none → getRecentCheckIns db userId limit = []) := by
  have hmain : ∀ s, getUserStats db userId = some s →
      getRecentCheckIns db userId limit = s.checkInRecords.reverse.take limit := by
    intro s hs
    unfold getRecentCheckIns
    rw [hs]
    show (jsSliceNeg s.checkInRecords limit).reverse = _
    unfold jsSliceNeg
    rw [if_neg (by omega : ¬ limit = 0), List.reverse_drop, List.take_eq_take]
    simp only [List.length_reverse]
    omega
  refine ⟨?_, hmain, ?_⟩
  · cases hs : getUserStats db userId with
    | none =>
        rw [show getRecentCheckIns db userId limit = [] by
          unfold getRecentCheckIns
          rw [hs]]
        simp
    | some s =>
        rw [hmain s hs]
        simp only [List.length_take]
        omega
  · intro hs
    unfold getRecentCheckIns
    rw [hs]

/-- Witness for C8 (amended) at limit 1 on a two-record window. -/
theorem claim_C8_witness :
    ((getRecentCheckIns (recordCheckIn dbOne "42" "Bob" recB) "42" 1).length ≤ 1 ∧
      (∀ s, getUserStats (recordCheckIn dbOne "42" "Bob" recB) "42" = some s →
        getRecentCheckIns (recordCheckIn dbOne "42" "Bob" recB) "42" 1 =
          s.checkInRecords.reverse.take 1) ∧
      (getUserStats (recordCheckIn dbOne "42" "Bob" recB) "42" = none →
        getRecentCheckIns (recordCheckIn dbOne "42" "Bob" recB) "42" 1 = [])) :=
  claim_C8_getRecent (recordCheckIn dbOne "42" "Bob" recB) "42" 1 (by norm_num)

theorem String.data_inj (s t : String) (h : s.data = t.data) : s = t := by
  cases s; cases t; exact congrArg String.mk h

theorem pad2_length33 : ∀ n, n < 33 → (pad2 n).length = 2 := by decide

theorem pad2_inj33 : ∀ a, a < 33 → ∀ b, b < 33 → pad2 a = pad2 b → a = b := by decide

/-- The date key determines the day of month (for day values below 33):
the key is `<prefix> ++ pad2 day` and `pad2 day` is the fixed-width
two-character suffix. -/
theorem dateKey_day_inj (d1 d2 : JsDate) (h1 : d1.day < 33) (h2 : d2.day < 33)
    (h : dateKey d1 = dateKey d2) : d1.day = d2.day := by
  have hdata : (toString d1.year ++ "-" ++ pad2 (d1.month + 1) ++ "-").data
        ++ (pad2 d1.day).data
      = (toString d2.year ++ "-" ++ pad2 (d2.month + 1) ++ "-").data
        ++ (pad2 d2.day).data := by
    have h' : (dateKey d1).data = (dateKey d2).data := congrArg String.data h
    unfold dateKey at h'
    simpa [String.data_append, List.append_assoc] using h'
  have hrev : (pad2 d1.day).data.reverse
        ++ (toString d1.year ++ "-" ++ pad2 (d1.month + 1) ++ "-").data.reverse
      = (pad2 d2.day).data.reverse
        ++ (toString d2.year ++ "-" ++ pad2 (d2.month + 1) ++ "-").data.reverse := by
    have := congrArg List.reverse hdata
    simpa [List.reverse_append] using this
  have hl1 : (pad2 d1.day).data.reverse.length = 2 := by
    rw [List.length_reverse]
    exact pad2_length33 d1.day h1
  have hl2 : (pad2 d2.day).data.reverse.length = 2 := by
    rw [List.length_reverse]
    exact pad2_length33 d2.day h2
  have htake : (pad2 d1.day).data.reverse = (pad2 d2.day).data.reverse := by
    have t1 := congrArg (List.take 2) hrev
    rw [← hl1] at t1
    rw [List.take_left] at t1
    rw [hl1, ← hl2, List.take_left] at t1
    exact t1
  have hpad : pad2 d1.day = pad2 d2.day :=
    String.data_inj _ _ (List.reverse_injective htake)
  exact pad2_inj33 d1.day h1 d2.day h2 hpad

theorem daysInMonth_ge (y m : Nat) : 28 ≤ daysInMonth y m := by
  unfold daysInMonth
  by_cases h1 : m = 1
  · rw [if_pos h1]
    cases isLeapYear y <;> simp
  · rw [if_neg h1]
    by_cases h2 : m = 3 ∨ m = 5 ∨ m = 8 ∨ m = 10 <;> simp [h2]

theorem daysInMonth_le (y m : Nat) : daysInMonth y m ≤ 31 := by
  unfold daysInMonth
  by_cases h1 : m = 1
  · rw [if_pos h1]
    cases isLeapYear y <;> simp
  · rw [if_neg h1]
    by_cases h2 : m = 3 ∨ m = 5 ∨ m = 8 ∨ m = 10 <;> simp [h2]

theorem nextDay_day_ne (d : JsDate) (hv : ValidDate d) : (nextDay d).day ≠ d.day := by
  obtain ⟨hm, hd1, hd2⟩ := hv
  unfold nextDay
  by_cases h : d.day < daysInMonth d.year d.month
  · rw [if_pos h]
    simp only
    omega
  · have hdim : d.day = daysInMonth d.year d.month := by omega
    have h28 := daysInMonth_ge d.year d.month
    rw [if_neg h]
    by_cases h11 : d.month < 11 <;> simp [h11] <;> omega

theorem nextDay_day_lt (d : JsDate) (hv : ValidDate d) : (nextDay d).day < 33 := by
  obtain ⟨hm, hd1, hd2⟩ := hv
  have h31 := daysInMonth_le d.year d.month
  unfold nextDay
  by_cases h : d.day < daysInMonth d.year d.month
  · rw [if_pos h]
    simp only
    omega
  · rw [if_neg h]
    by_cases h11 : d.month < 11 <;> simp [h11]

/-- Consecutive calendar days have different daily keys. -/
theorem dateKey_nextDay_ne (d : JsDate) (hv : ValidDate d) :
    dateKey d ≠ dateKey (nextDay d) := by
  intro h
  have hd33 : d.day < 33 := by
    have := daysInMonth_le d.year d.month
    obtain ⟨-, -, hd2⟩ := hv
    omega
  exact nextDay_day_ne d hv (dateKey_day_inj (nextDay d) d (nextDay_day_lt d hv) hd33 h.symm)

/-- C5: after markActedToday on calendar day D, hasActedToday is true
for any check on day D and false on day D+1 (given that no mark was
written for day D+1). -/
theorem claim_C5_daily_gate (db : DB) (uid : String) (d : JsDate) (nowTs : Int)
    (hv : ValidDate d)
    (hno : hasUserCommentedToday db uid (nextDay d) = false) :
    hasUserCommentedToday (recordDailyComment db uid d nowTs) uid d = true ∧
    hasUserCommentedToday (recordDailyComment db uid d nowTs) uid (nextDay d) = false := by
  constructor
  · show (alGet (alPut db.daily (uid, dateKey d)
      (DailyCommentRecord.mk uid (dateKey d) nowTs)) (uid, dateKey d)).isSome = true
    rw [alGet_alPut_self]
    rfl
  · show (alGet (alPut db.daily (uid, dateKey d)
      (DailyCommentRecord.mk uid (dateKey d) nowTs)) (uid, dateKey (nextDay d))).isSome = false
    rw [alGet_alPut_ne]
    · exact hno
    · intro he
      exact dateKey_nextDay_ne d hv (congrArg Prod.snd he)

/-- Witness for C5 on 2024-06-15 over the empty store. -/
theorem claim_C5_witness :
    hasUserCommentedToday (recordDailyComment emptyDB "42" todayW 5) "42" todayW = true ∧
    hasUserCommentedToday (recordDailyComment emptyDB "42" todayW 5) "42" (nextDay todayW) = false :=
  claim_C5_daily_gate emptyDB "42" todayW 5 (by constructor <;> norm_num [todayW, daysInMonth]) (by rfl)

/-- C4: a notification id already present in the ledger is skipped as a
terminal duplicate — the loop body leaves the store untouched (no
ledger write) and makes no collaborator call at all (empty trace). -/
theorem claim_C4_duplicate_skip (cfg : Config) (env : Env) (today : JsDate)
    (nowTs : Int) (db : DB) (msg : AtMessage)
    (h : isAtMessageProcessed db msg.id = true) :
    checkAndCommentStep cfg env today nowTs db msg = (db, []) := by
  unfold checkAndCommentStep
  rw [h]
  rfl

/-- Witness for C4: a second cycle over a message whose id is already
recorded. -/
theorem claim_C4_witness :
    checkAndCommentStep cfgW envFailPost todayW 5
      (recordProcessedAtMessage emptyDB (mkProcessedMessage msgW "555" 3)) msgW
      = (recordProcessedAtMessage emptyDB (mkProcessedMessage msgW "555" 3), []) :=
  claim_C4_duplicate_skip cfgW envFailPost todayW 5
    (recordProcessedAtMessage emptyDB (mkProcessedMessage msgW "555" 3)) msgW (by rfl)

/-- The detail fetch only emits fetch events. -/
theorem fetchDetail_events (env : Env) (b : Bool) :
    ∀ e ∈ (fetchDetail env b).2,
      e = Ev.fetchOpusDetail ∨ e = Ev.fetchDynamicDetail := by
  intro e he
  unfold fetchDetail at he
  cases b with
  | false =>
      simp only [Bool.false_eq_true, if_neg, ite_false] at he
      simp at he
      simp [he]
  | true =>
      simp only [if_pos, ite_true] at he
      cases ho : (match env.opusDetail with
        | .ok o => o
        | .error _ => none : Option DynamicData) with
      | some dd =>
          rw [ho] at he
          simp at he
          simp [he]
      | none =>
          rw [ho] at he
          simp at he
          rcases he with he | he <;> simp [he]

theorem isAtMessageProcessed_record_self (db : DB) (m : ProcessedAtMessage) :
    isAtMessageProcessed (recordProcessedAtMessage db m) m.atMessageId = true := by
  unfold isAtMessageProcessed recordProcessedAtMessage
  rw [alGet_alPut_self]
  rfl

/-- C6: a notification that resolves to content with an empty image
list is marked processed, while the statistics and the daily marks are
untouched and neither a statistics append nor a publish happens. -/
theorem claim_C6_no_attachment (cfg : Config) (env : Env) (today : JsDate)
    (nowTs : Int) (db : DB) (msg : AtMessage) (isOpus : Bool)
    (dynamicId : String) (dd : DynamicData)
    (hparse : parseUri msg.item.uri =
      (if isOpus then UriParse.opus dynamicId else UriParse.dynamic dynamicId))
    (hfetch : (fetchDetail env isOpus).1 = some dd)
    (himg : (checkImagesInDynamicCard (mkCard dynamicId msg dd)).length = 0) :
    isAtMessageProcessed (checkAndCommentStep cfg env today nowTs db msg).1 msg.id = true ∧
    (checkAndCommentStep cfg env today nowTs db msg).1.users = db.users ∧
    (checkAndCommentStep cfg env today nowTs db msg).1.daily = db.daily ∧
    (∀ e ∈ (checkAndCommentStep cfg env today nowTs db msg).2,
      e.isPublish = false ∧ e.isAppendStats = false) := by
  have hev : ∀ e : Ev, (e = Ev.fetchOpusDetail ∨ e = Ev.fetchDynamicDetail ∨
      e = Ev.writeLedger msg.id) → e.isPublish = false ∧ e.isAppendStats = false := by
    rintro e (rfl | rfl | rfl) <;> exact ⟨rfl, rfl⟩
  by_cases h0 : isAtMessageProcessed db msg.id = true
  · have hskip : checkAndCommentStep cfg env today nowTs db msg = (db, []) := by
      unfold checkAndCommentStep
      rw [h0]
      rfl
    rw [hskip]
    exact ⟨h0, rfl, rfl, by intro e he; simp at he⟩
  · have h0' : isAtMessageProcessed db msg.id = false := by
      cases hb : isAtMessageProcessed db msg.id
      · rfl
      · exact absurd hb h0
    have hstep : checkAndCommentStep cfg env today nowTs db msg
        = processAtMessage cfg env today nowTs db msg := by
      unfold checkAndCommentStep
      rw [h0']
      rfl
    have hbody : processAtMessage cfg env today nowTs db msg
        = processWithId cfg env today nowTs db msg isOpus dynamicId := by
      unfold processAtMessage
      cases isOpus with
      | true => rw [hparse.trans (if_pos rfl)]
      | false => rw [hparse.trans (if_neg (by simp))]
    rw [hstep, hbody]
    have hcheck : checkIfUserCommentedAndPost cfg env today nowTs db
        (jsOrNum ((mkCard dynamicId msg dd).basic.bind (fun b => b.comment_type))
          msg.item.business_id)
        (jsOrStr ((mkCard dynamicId msg dd).basic.bind (fun b => b.rid_str)) dynamicId)
        (mkCard dynamicId msg dd) (some dd) = (true, db, []) := by
      unfold checkIfUserCommentedAndPost
      simp only [himg, if_pos]
    have hres : processWithId cfg env today nowTs db msg isOpus dynamicId
        = (recordProcessedAtMessage db (mkProcessedMessage msg dynamicId nowTs),
           (fetchDetail env isOpus).2 ++ [Ev.writeLedger msg.id]) := by
      unfold processWithId
      cases hstale : isStale nowTs dd with
      | true => simp [hfetch, hstale]
      | false => simp [hfetch, hstale, hcheck]
    rw [hres]
    refine ⟨?_, rfl, rfl, ?_⟩
    · exact isAtMessageProcessed_record_self db (mkProcessedMessage msg dynamicId nowTs)
    · intro e he
      simp only [List.mem_append, List.mem_singleton] at he
      rcases he with he | he
      · rcases fetchDetail_events env isOpus e he with h1 | h1
        · exact hev e (Or.inl h1)
        · exact hev e (Or.inr (Or.inl h1))
      · exact hev e (Or.inr (Or.inr he))

/-- Witness for C6: an opus notification resolving to a payload with no
pictures. -/
theorem claim_C6_witness :
    isAtMessageProcessed
      (checkAndCommentStep cfgW envNoImages todayW 5 emptyDB msgW).1 msgW.id = true ∧
    (checkAndCommentStep cfgW envNoImages todayW 5 emptyDB msgW).1.users = emptyDB.users ∧
    (checkAndCommentStep cfgW envNoImages todayW 5 emptyDB msgW).1.daily = emptyDB.daily ∧
    (∀ e ∈ (checkAndCommentStep cfgW envNoImages todayW 5 emptyDB msgW).2,
      e.isPublish = false ∧ e.isAppendStats = false) :=
  claim_C6_no_attachment cfgW envNoImages todayW 5 emptyDB msgW true "555" ddN
    (by rfl) (by rfl) (by rfl)

/-- The failure path of postComment: with the posting step reached
(csrf found, author resolved, analysis delivered a non-empty category
list, so the check-in was tentatively appended) and the publish call
failing, postComment reports failure, rolls the append back (totals
restored; a first-time author is left with zero), and neither the
ledger nor the daily marks are touched. -/
theorem postComment_fail_effects (cfg : Config) (env : Env) (today : JsDate)
    (nowTs : Int) (db : DB) (ty : Int) (rid : String) (card : DynamicCardItem)
    (dd : DynamicData) (aId : String) (cts : List CloudType) (txt : String)
    (evs1 : List Ev)
    (hcsrf : (getCsrfToken cfg.cookie).isSome = true)
    (hauthor : extractAuthorId dd = some aId)
    (hana : analysisStep cfg env card = (some (cts, txt), evs1))
    (hcts : cts ≠ [])
    (hfail : postFailed env = true) :
    (postComment cfg env today nowTs db ty rid card (some dd)).1 = false ∧
    (postComment cfg env today nowTs db ty rid card (some dd)).2.1.processed
      = db.processed ∧
    (postComment cfg env today nowTs db ty rid card (some dd)).2.1.daily
      = db.daily ∧
    (∀ s0, getUserStats db aId = some s0 →
      ∃ s1, getUserStats
          (postComment cfg env today nowTs db ty rid card (some dd)).2.1 aId
        = some s1 ∧ s1.totalCheckIns = s0.totalCheckIns) ∧
    (getUserStats db aId = none →
      ∃ s1, getUserStats
          (postComment cfg env today nowTs db ty rid card (some dd)).2.1 aId
        = some s1 ∧ s1.totalCheckIns = 0) := by
  obtain ⟨c, hc⟩ := Option.isSome_iff_exists.mp hcsrf
  have hlen : 0 < cts.length := List.length_pos.mpr hcts
  have key : ∃ tr, postComment cfg env today nowTs db ty rid card (some dd)
      = (false, (rollbackLastCheckIn (recordCheckIn db aId
          (jsOrStr (extractAuthorName dd) ("用户" ++ aId))
          (CheckInRecord.mk card.id_str nowTs cts
            ((checkImagesInDynamicCard card).length : Int) txt)) aId).2, tr) := by
    unfold postComment
    rw [hc]
    simp only [show (some dd).bind extractAuthorId = some aId from hauthor, hana]
    rw [if_pos hlen]
    cases hpc2 : env.postCode with
    | ok code =>
        have hcode : ¬ (code = 0) := by
          unfold postFailed at hfail
          rw [hpc2] at hfail
          simpa using hfail
        simp only [if_neg hcode]
        exact ⟨_, rfl⟩
    | error u =>
        exact ⟨_, rfl⟩
  obtain ⟨tr, hkey⟩ := key
  rw [hkey]
  refine ⟨rfl, ?_, ?_, ?_, ?_⟩
  · exact (rollbackLastCheckIn_frame _ _).1.trans (recordCheckIn_frame _ _ _ _).1
  · exact (rollbackLastCheckIn_frame _ _).2.trans (recordCheckIn_frame _ _ _ _).2
  · intro s0 hs0
    have h0' : alGet db.users aId = some s0 := hs0
    have happ := getUserStats_recordCheckIn_some db aId
      (jsOrStr (extractAuthorName dd) ("用户" ++ aId))
      (CheckInRecord.mk card.id_str nowTs cts
        ((checkImagesInDynamicCard card).length : Int) txt) s0 h0'
    have hlast := getLast_append_window s0.checkInRecords
      (CheckInRecord.mk card.id_str nowTs cts
        ((checkImagesInDynamicCard card).length : Int) txt)
    have hroll := rollbackLastCheckIn_eq _ aId _ _ happ hlast
    refine ⟨_, by rw [hroll]; exact alGet_alPut_self _ _ _, ?_⟩
    show s0.totalCheckIns + 1 - 1 = s0.totalCheckIns
    ring
  · intro hs0
    have h0' : alGet db.users aId = none := hs0
    have happ := getUserStats_recordCheckIn_none db aId
      (jsOrStr (extractAuthorName dd) ("用户" ++ aId))
      (CheckInRecord.mk card.id_str nowTs cts
        ((checkImagesInDynamicCard card).length : Int) txt) h0'
    have hlast : ([CheckInRecord.mk card.id_str nowTs cts
        ((checkImagesInDynamicCard card).length : Int) txt] :
        List CheckInRecord).getLast? = some (CheckInRecord.mk card.id_str nowTs cts
        ((checkImagesInDynamicCard card).length : Int) txt) := rfl
    have hroll := rollbackLastCheckIn_eq _ aId _ _ happ hlast
    refine ⟨_, by rw [hroll]; exact alGet_alPut_self _ _ _, ?_⟩
    show (1 : Int) - 1 = 0
    ring

/-- C1: for a notification whose workflow reaches the posting step with
the check-in already appended for the resolved author (all gates
passed, analysis delivered categories) and whose publish fails
(non-zero code or throw), afterwards the event is still not in the
ledger (eligible for retry), the author's totalActions is unchanged
from before the attempt (zero for a first-time author), and the author
has no daily mark. -/
theorem claim_C1_post_failure (cfg : Config) (env : Env) (today : JsDate)
    (nowTs : Int) (db : DB) (msg : AtMessage) (isOpus : Bool)
    (dynamicId : String) (dd : DynamicData) (aId : String)
    (co : Option (List CommentReply)) (cts : List CloudType) (txt : String)
    (evs1 : List Ev)
    (h0 : isAtMessageProcessed db msg.id = false)
    (hparse : parseUri msg.item.uri =
      (if isOpus then UriParse.opus dynamicId else UriParse.dynamic dynamicId))
    (hfetch : (fetchDetail env isOpus).1 = some dd)
    (hfresh : isStale nowTs dd = false)
    (himg : ¬ (checkImagesInDynamicCard (mkCard dynamicId msg dd)).length = 0)
    (hauthor : extractAuthorId dd = some aId)
    (hgate : hasUserCommentedToday db aId today = false)
    (hcom : env.comments = Except.ok co)
    (halready : alreadyCommented cfg.uidToMonitor co = false)
    (hcsrf : (getCsrfToken cfg.cookie).isSome = true)
    (hana : analysisStep cfg env (mkCard dynamicId msg dd) = (some (cts, txt), evs1))
    (hcts : cts ≠ [])
    (hfail : postFailed env = true) :
    isAtMessageProcessed (checkAndCommentStep cfg env today nowTs db msg).1 msg.id
      = false ∧
    (∀ s0, getUserStats db aId = some s0 →
      ∃ s1, getUserStats (checkAndCommentStep cfg env today nowTs db msg).1 aId
        = some s1 ∧ s1.totalCheckIns = s0.totalCheckIns) ∧
    (getUserStats db aId = none →
      ∃ s1, getUserStats (checkAndCommentStep cfg env today nowTs db msg).1 aId
        = some s1 ∧ s1.totalCheckIns = 0) ∧
    hasUserCommentedToday (checkAndCommentStep cfg env today nowTs db msg).1 aId today
      = false := by
  have heff := postComment_fail_effects cfg env today nowTs db
    (jsOrNum ((mkCard dynamicId msg dd).basic.bind (fun b => b.comment_type))
      msg.item.business_id)
    (jsOrStr ((mkCard dynamicId msg dd).basic.bind (fun b => b.rid_str)) dynamicId)
    (mkCard dynamicId msg dd) dd aId cts txt evs1 hcsrf hauthor hana hcts hfail
  obtain ⟨hpc1, hpcproc, hpcdaily, hpcsome, hpcnone⟩ := heff
  have hstep : checkAndCommentStep cfg env today nowTs db msg
      = processAtMessage cfg env today nowTs db msg := by
    unfold checkAndCommentStep
    rw [h0]
    rfl
  have hbody : processAtMessage cfg env today nowTs db msg
      = processWithId cfg env today nowTs db msg isOpus dynamicId := by
    unfold processAtMessage
    cases isOpus with
    | true => rw [hparse.trans (if_pos rfl)]
    | false => rw [hparse.trans (if_neg (by simp))]
  have hcheck : checkIfUserCommentedAndPost cfg env today nowTs db
      (jsOrNum ((mkCard dynamicId msg dd).basic.bind (fun b => b.comment_type))
        msg.item.business_id)
      (jsOrStr ((mkCard dynamicId msg dd).basic.bind (fun b => b.rid_str)) dynamicId)
      (mkCard dynamicId msg dd) (some dd)
      = ((postComment cfg env today nowTs db
          (jsOrNum ((mkCard dynamicId msg dd).basic.bind (fun b => b.comment_type))
            msg.item.business_id)
          (jsOrStr ((mkCard dynamicId msg dd).basic.bind (fun b => b.rid_str)) dynamicId)
          (mkCard dynamicId msg dd) (some dd)).1,
        (postComment cfg env today nowTs db
          (jsOrNum ((mkCard dynamicId msg dd).basic.bind (fun b => b.comment_type))
            msg.item.business_id)
          (jsOrStr ((mkCard dynamicId msg dd).basic.bind (fun b => b.rid_str)) dynamicId)
          (mkCard dynamicId msg dd) (some dd)).2.1,
        Ev.getComments :: (postComment cfg env today nowTs db
          (jsOrNum ((mkCard dynamicId msg dd).basic.bind (fun b => b.comment_type))
            msg.item.business_id)
          (jsOrStr ((mkCard dynamicId msg dd).basic.bind (fun b => b.rid_str)) dynamicId)
          (mkCard dynamicId msg dd) (some dd)).2.2) := by
    unfold checkIfUserCommentedAndPost
    simp only [if_neg himg, hauthor, hgate, hcom, halready]
    simp
  have hres : processWithId cfg env today nowTs db msg isOpus dynamicId
      = ((postComment cfg env today nowTs db
          (jsOrNum ((mkCard dynamicId msg dd).basic.bind (fun b => b.comment_type))
            msg.item.business_id)
          (jsOrStr ((mkCard dynamicId msg dd).basic.bind (fun b => b.rid_str)) dynamicId)
          (mkCard dynamicId msg dd) (some dd)).2.1,
        (fetchDetail env isOpus).2 ++ (Ev.getComments :: (postComment cfg env today nowTs db
          (jsOrNum ((mkCard dynamicId msg dd).basic.bind (fun b => b.comment_type))
            msg.item.business_id)
          (jsOrStr ((mkCard dynamicId msg dd).basic.bind (fun b => b.rid_str)) dynamicId)
          (mkCard dynamicId msg dd) (some dd)).2.2)) := by
    unfold processWithId
    simp only [hfetch, hfresh, Bool.false_eq_true, if_neg, ite_false, hcheck, hpc1]
  rw [hstep, hbody, hres]
  refine ⟨?_, hpcsome, hpcnone, ?_⟩
  · show (alGet (postComment cfg env today nowTs db
        (jsOrNum ((mkCard dynamicId msg dd).basic.bind (fun b => b.comment_type))
          msg.item.business_id)
        (jsOrStr ((mkCard dynamicId msg dd).basic.bind (fun b => b.rid_str)) dynamicId)
        (mkCard dynamicId msg dd) (some dd)).2.1.processed msg.id).isSome = false
    rw [hpcproc]
    exact h0
  · show (alGet (postComment cfg env today nowTs db
        (jsOrNum ((mkCard dynamicId msg dd).basic.bind (fun b => b.comment_type))
          msg.item.business_id)
        (jsOrStr ((mkCard dynamicId msg dd).basic.bind (fun b => b.rid_str)) dynamicId)
        (mkCard dynamicId msg dd) (some dd)).2.1.daily (aId, dateKey today)).isSome = false
    rw [hpcdaily]
    exact hgate

/-- Witness for C1: an opus notification for author 42 (holding one
prior check-in), all gates open, publish returning code -404. -/
theorem claim_C1_witness :
    isAtMessageProcessed
      (checkAndCommentStep cfgW envFailPost todayW 5 dbOne msgW).1 msgW.id = false ∧
    (∃ s1, getUserStats (checkAndCommentStep cfgW envFailPost todayW 5 dbOne msgW).1 "42"
      = some s1 ∧ s1.totalCheckIns = 1) ∧
    hasUserCommentedToday
      (checkAndCommentStep cfgW envFailPost todayW 5 dbOne msgW).1 "42" todayW = false := by
  obtain ⟨hA, hB, hC, hD⟩ := claim_C1_post_failure cfgW envFailPost todayW 5 dbOne msgW
    true "555" ddW "42" (some [])
    [CloudType.mk "云朵" (0.5 : ℚ) (some "云朵分析功能未启用")] cfgW.commentText []
    (by rfl) (by rfl) (by rfl) (by rfl) (by decide) (by rfl) (by rfl) (by rfl)
    (by rfl) (by rfl) (by rfl) (by simp) (by rfl)
  refine ⟨hA, ?_, hD⟩
  obtain ⟨s1, hs1, ht⟩ := hB (UserStats.mk "Alice" 1 2 [("积云", 1)] 10 10 [recA]) (by rfl)
  exact ⟨s1, hs1, ht⟩
